import Mathlib

/-!
Verification of the friend-link checker (`check-links` script) of this
repository.  The script probes each friend link's URL and avatar with
`fetch`, retries with exponential backoff, classifies terminal statuses,
reconciles the `disconnected` flags of the persisted entry list, and
round-trips the entry list through a regex parser (`parseFriendsTs`) and a
template serializer (`generateFriendsTs`).

Strings are modelled as lists of characters (`Str`).  Network
nondeterminism is modelled by oracles: a function `Nat → FetchOutcome`
gives the outcome `fetch` would produce on the i-th attempt for a
resource, and a function `Nat → Nat` gives the jitter that
`Math.floor(Math.random() * 100)` would produce before the i-th retry.
-/

set_option maxRecDepth 10000

abbrev Str := List Char

/-- `interface FriendLink` of the source.  Optional fields are `Option`;
the parser only ever produces `none` or `some true` for the two flags. -/
structure FriendLink where
  name : Str
  description : Str
  url : Str
  avatar : Str
  addDate : Option Str
  recommended : Option Bool
  disconnected : Option Bool
deriving DecidableEq, Repr

/-- `type LinkStatus = 'ok' | 'timeout' | 'error'` of the source. -/
inductive LinkStatus where
  | ok
  | timeout
  | error
deriving DecidableEq, Repr

/-- `interface LinkCheckResult` of the source. -/
structure LinkCheckResult where
  name : Str
  url : Str
  avatar : Str
  status : Option LinkStatus
  httpStatus : Option Nat
  responseTime : Option Nat
  reason : Option Str
  avatarStatus : Option LinkStatus
  avatarHttpStatus : Option Nat
  avatarResponseTime : Option Nat
deriving DecidableEq, Repr

/-- `interface DisconnectedInfo` of the source. -/
structure DisconnectedInfo where
  name : Str
  url : Str
  reason : Str
deriving DecidableEq, Repr

/-- A JavaScript `Error` value: its `name` and `message`. -/
structure JsError where
  name : Str
  message : Str
deriving DecidableEq, Repr

/-- Outcome of one call of the runtime `fetch`: either it resolves with a
response (final status code after following redirects, and elapsed time),
or it rejects with an error (DNS/connection/TLS failure, or the
`AbortError` raised when the 15000 ms timeout fires). -/
inductive FetchOutcome where
  | resolve (status : Nat) (time : Nat)
  | reject (e : JsError)
deriving DecidableEq, Repr

/-- The value `fetchUrl` resolves with: `{ ok, status, time }`. -/
structure FetchRes where
  ok : Bool
  status : Nat
  time : Nat
deriving DecidableEq, Repr

def CHECK_TIMEOUT : Nat := 15000
def MAX_RETRIES : Nat := 3
def RETRY_DELAY : Nat := 1000

/-- `fetchUrl` of the source.  It has a `try`/`finally` with no `catch`:
a rejection of `fetch` propagates to the caller (`Except.error`), while a
received response is returned with `ok = res.ok` (status in 200..299,
the WHATWG `Response.ok` range). -/
def fetchUrl : FetchOutcome → Except JsError FetchRes
  | FetchOutcome.resolve s t => Except.ok ⟨decide (200 ≤ s) && decide (s < 300), s, t⟩
  | FetchOutcome.reject e => Except.error e

/-- One iteration body of the retry loop in `checkLink`: call `fetchUrl`;
a response with `!res.ok` is turned into `throw new Error('HTTP ' + status)`
(a JS `Error` has `name = "Error"`); a rejection is rethrown unchanged. -/
def attemptResult (o : FetchOutcome) : Except JsError (Nat × Nat) :=
  match fetchUrl o with
  | Except.ok r =>
      if r.ok then Except.ok (r.status, r.time)
      else Except.error ⟨"Error".toList, "HTTP ".toList ++ (Nat.repr r.status).toList⟩
  | Except.error e => Except.error e

/-- Whether attempt outcome `o` succeeds (reaches the `break`). -/
def attemptOk (o : FetchOutcome) : Bool :=
  match attemptResult o with
  | Except.ok _ => true
  | Except.error _ => false

/-- Error name of a failing attempt outcome (list-nil for a success). -/
def errNameOf (o : FetchOutcome) : Str :=
  match attemptResult o with
  | Except.error e => e.name
  | Except.ok _ => []

/-- Terminal state of one resource check: the fields the loop writes into
the result, plus the observable trace (number of probe attempts performed
and backoff delays waited). -/
structure ResourceOutcome where
  status : LinkStatus
  httpStatus : Option Nat
  responseTime : Nat
  reason : Option Str
  attempts : Nat
  delays : List Nat
deriving DecidableEq, Repr

/-- The retry loop `for (let i = 0; i < MAX_RETRIES; i++)` of `checkLink`,
for one resource.  `i` is the current zero-based attempt index, `fuel` the
number of attempts still allowed.  On a failure that is not the last
attempt the loop waits `RETRY_DELAY * 2 ** i + jitter` ms; after the loop,
an unset status is classified from the last error: `'timeout'` iff its
name is `'AbortError'`, with `responseTime = 0` and the error message as
`reason`. -/
def checkResourceGo (probe : Nat → FetchOutcome) (jitter : Nat → Nat) :
    Nat → Nat → List Nat → ResourceOutcome
  | _, 0, acc => ⟨LinkStatus.error, none, 0, none, 0, acc⟩
  | i, 1, acc =>
      match attemptResult (probe i) with
      | Except.ok (s, t) => ⟨LinkStatus.ok, some s, t, none, i + 1, acc⟩
      | Except.error e =>
          ⟨if e.name = "AbortError".toList then LinkStatus.timeout else LinkStatus.error,
            none, 0, some e.message, i + 1, acc⟩
  | i, fuel + 2, acc =>
      match attemptResult (probe i) with
      | Except.ok (s, t) => ⟨LinkStatus.ok, some s, t, none, i + 1, acc⟩
      | Except.error _ =>
          checkResourceGo probe jitter (i + 1) (fuel + 1)
            (acc ++ [RETRY_DELAY * 2 ^ i + jitter i])

/-- One full resource check: up to `MAX_RETRIES` attempts starting at
index 0. -/
def checkResource (probe : Nat → FetchOutcome) (jitter : Nat → Nat) : ResourceOutcome :=
  checkResourceGo probe jitter 0 MAX_RETRIES []

/-- Result of `checkLink` together with its probe/delay trace. -/
structure CheckTrace where
  result : LinkCheckResult
  urlAttempts : Nat
  avatarAttempts : Nat
  urlDelays : List Nat
  avatarDelays : List Nat
deriving DecidableEq, Repr

/-- `checkLink` of the source: short-circuit for an entry already flagged
`disconnected` (synthetic ok/ok result, zero probes), otherwise check the
URL then the avatar, each with its own retry loop.  The avatar loop does
not record a `reason`. -/
def checkLink (friend : FriendLink) (pu pa : Nat → FetchOutcome)
    (ju ja : Nat → Nat) : CheckTrace :=
  if friend.disconnected.getD false then
    ⟨⟨friend.name, friend.url, friend.avatar, some LinkStatus.ok, none, some 0, none,
        some LinkStatus.ok, none, some 0⟩, 0, 0, [], []⟩
  else
    let u := checkResource pu ju
    let a := checkResource pa ja
    ⟨⟨friend.name, friend.url, friend.avatar, some u.status, u.httpStatus,
        some u.responseTime, u.reason, some a.status, a.httpStatus,
        some a.responseTime⟩, u.attempts, a.attempts, u.delays, a.delays⟩

/-- The check loop of `main`: one `checkLink` per entry, in order.  The
oracles take the entry index first. -/
def runChecks (friends : List FriendLink) (pu pa : Nat → Nat → FetchOutcome)
    (ju ja : Nat → Nat → Nat) : List CheckTrace :=
  friends.enum.map (fun p => checkLink p.2 (pu p.1) (pa p.1) (ju p.1) (ja p.1))

/-- `pat` is a prefix of `s`: consume it and return the remainder. -/
def litDrop : Str → Str → Option Str
  | [], s => some s
  | _ :: _, [] => none
  | p :: ps, c :: cs => if p = c then litDrop ps cs else none

/-- Whether `pat` is a prefix of `s`. -/
def litTest (pat s : Str) : Bool :=
  (litDrop pat s).isSome

/-- `String.prototype.includes`: `pat` occurs as a contiguous substring. -/
def hasSub : Str → Str → Bool
  | [], pat => litTest pat []
  | s@(_ :: cs), pat => litTest pat s || hasSub cs pat

/-- `'已标记为失联'`, the marker text tested by the vestigial guard in the
`failed` filter of `main`. -/
def marker : Str := "已标记为失联".toList

/-- Rendering of an optional `LinkStatus` in a template literal
(an unset field would print as `undefined`). -/
def statusText : Option LinkStatus → Str
  | some LinkStatus.ok => "ok".toList
  | some LinkStatus.timeout => "timeout".toList
  | some LinkStatus.error => "error".toList
  | none => "undefined".toList

/-- `f.reason ? ' (' + f.reason + ')' : ''` (an empty string is falsy). -/
def reasonSuffix : Option Str → Str
  | some m => if m.isEmpty then [] else " (".toList ++ m ++ ")".toList
  | none => []

/-- `'URL: ' + f.status + (f.reason ? ...)`. -/
def urlIssue (r : LinkCheckResult) : Str :=
  "URL: ".toList ++ statusText r.status ++ reasonSuffix r.reason

/-- `'Avatar: ' + f.avatarStatus`. -/
def avatarIssue (r : LinkCheckResult) : Str :=
  "Avatar: ".toList ++ statusText r.avatarStatus

/-- The `issues` array built in `main` for a failed result. -/
def issuesOf (r : LinkCheckResult) : List Str :=
  (if r.status ≠ some LinkStatus.ok then [urlIssue r] else []) ++
    (if r.avatarStatus ≠ some LinkStatus.ok then [avatarIssue r] else [])

/-- `Array.prototype.join(sep)`. -/
def joinSep (sep : Str) : List Str → Str
  | [] => []
  | [x] => x
  | x :: y :: xs => x ++ sep ++ joinSep sep (y :: xs)

/-- `r.reason?.includes('已标记为失联')`, with `undefined` being falsy. -/
def reasonHasMarker (r : LinkCheckResult) : Bool :=
  match r.reason with
  | some m => hasSub m marker
  | none => false

/-- The `failed` filter of `main`:
`(r.status !== 'ok' && !r.reason?.includes('已标记为失联')) || r.avatarStatus !== 'ok'`. -/
def failedFilter (r : LinkCheckResult) : Bool :=
  (decide (r.status ≠ some LinkStatus.ok) && !reasonHasMarker r) ||
    decide (r.avatarStatus ≠ some LinkStatus.ok)

/-- The `DisconnectedInfo` record pushed for one failed result. -/
def mkInfo (r : LinkCheckResult) : DisconnectedInfo :=
  ⟨r.name, r.url, joinSep ", ".toList (issuesOf r)⟩

/-- `result.status !== 'ok' || result.avatarStatus !== 'ok'`: the
condition under which `main` sets `disconnected: true`. -/
def plainFails (r : LinkCheckResult) : Bool :=
  decide (r.status ≠ some LinkStatus.ok) || decide (r.avatarStatus ≠ some LinkStatus.ok)

/-- Body of the `friends.map` in the failed branch of `main`: find this
entry's result by name, set the flag if the result fails, clear it if the
result is ok/ok and the flag is set, else pass through. -/
def updateEntry (results : List LinkCheckResult) (f : FriendLink) : FriendLink :=
  match results.find? (fun r => r.name == f.name) with
  | some r =>
      if plainFails r then { f with disconnected := some true }
      else if f.disconnected.getD false then { f with disconnected := none }
      else f
  | none => f

/-- Body of the `friends.map` in the recovery branch of `main`. -/
def recoverEntry (f : FriendLink) : FriendLink :=
  if f.disconnected.getD false then { f with disconnected := none } else f

/-- The observable outcome of one run of `main` after the results are in:
whether the entry file is rewritten (`changed`), the persisted failure
report (`newlyFailing`), the updated entry list, and the process exit
code. -/
structure RunReport where
  changed : Bool
  newlyFailing : List DisconnectedInfo
  updatedEntries : List FriendLink
  exitCode : Nat
deriving DecidableEq, Repr

/-- The reconciliation part of `main` (lines after all results are
collected): filter `failed`, build `disconnectedList`, update the entry
flags and exit 1 if any result failed; otherwise clear the flags of
entries that were marked disconnected (they produced synthetic ok/ok
results) and exit 0. -/
def mainStep (friends : List FriendLink) (results : List LinkCheckResult) : RunReport :=
  let failed := results.filter failedFilter
  if failed.isEmpty then
    { changed := !(friends.filter (fun f => f.disconnected.getD false)).isEmpty,
      newlyFailing := [],
      updatedEntries := friends.map recoverEntry,
      exitCode := 0 }
  else
    let updated := friends.map (updateEntry results)
    { changed := (updated.zip friends).any (fun p => p.1.disconnected != p.2.disconnected),
      newlyFailing := failed.map mkInfo,
      updatedEntries := updated,
      exitCode := 1 }

/-- Equality of every `FriendLink` field except `disconnected`. -/
def sameCore (a b : FriendLink) : Prop :=
  a.name = b.name ∧ a.description = b.description ∧ a.url = b.url ∧
    a.avatar = b.avatar ∧ a.addDate = b.addDate ∧ a.recommended = b.recommended

/-- JS `\s` character class (the whitespace characters relevant here). -/
def jsSpace (c : Char) : Bool :=
  c = ' ' || c = '\t' || c = '\n' || c = '\r' || c = '\x0b' || c = '\x0c'

/-- Lazy capture `([\s\S]*?)\];` of the outer regex: the text up to the
first occurrence of `];`, or `none` when `];` never occurs (the regex
then fails to match at this start position). -/
def captureUntil (pat : Str) : Str → Option Str
  | [] => none
  | c :: cs =>
      if litTest pat (c :: cs) then some []
      else (captureUntil pat cs).map (fun r => c :: r)

def constLit : Str := "export const FRIEND_LINKS:".toList

/-- Attempt of the outer regex
`export const FRIEND_LINKS:\s*FriendLink\[\]\s*=\s*\[([\s\S]*?)\];` at
the current position; returns capture group 1. -/
def matchConstAt (s : Str) : Option Str :=
  (litDrop constLit s).bind (fun s1 =>
  (litDrop "FriendLink[]".toList (s1.dropWhile jsSpace)).bind (fun s2 =>
  (litDrop "=".toList (s2.dropWhile jsSpace)).bind (fun s3 =>
  (litDrop "[".toList (s3.dropWhile jsSpace)).bind (fun s4 =>
  captureUntil "];".toList s4))))

/-- `content.match(...)` in `parseFriendsTs`: the regex engine scans for
the first position at which the whole pattern matches. -/
def findConst : Str → Option Str
  | [] => none
  | c :: cs =>
      match matchConstAt (c :: cs) with
      | some r => some r
      | none => findConst cs

/-- `\s*<label>\s*"([^"]+)"` — one required field of the object regex:
whitespace, the label, whitespace, an opening quote, a nonempty greedy
run of non-quote characters (the capture), and the closing quote. -/
def eatField (label : Str) (s : Str) : Option (Str × Str) :=
  (litDrop label (s.dropWhile jsSpace)).bind (fun t1 =>
  (litDrop "\"".toList (t1.dropWhile jsSpace)).bind (fun t2 =>
  let cap := t2.takeWhile (fun c => c != '"')
  let t3 := t2.dropWhile (fun c => c != '"')
  if cap.isEmpty then none
  else (litDrop "\"".toList t3).map (fun t4 => (cap, t4))))

/-- The body of the optional group `(?:,\s*<label>\s*"([^"]*)")?`
(the `addDate` group; the capture may be empty). -/
def tryOptStr (label : Str) (s : Str) : Option (Str × Str) :=
  (litDrop ",".toList s).bind (fun t =>
  (litDrop label (t.dropWhile jsSpace)).bind (fun t1 =>
  (litDrop "\"".toList (t1.dropWhile jsSpace)).bind (fun t2 =>
  let cap := t2.takeWhile (fun c => c != '"')
  let t3 := t2.dropWhile (fun c => c != '"')
  (litDrop "\"".toList t3).map (fun t4 => (cap, t4)))))

/-- The optional group matches entirely or is skipped with the position
unchanged (regex `(?:...)?` semantics; no alternative continuation can
match after a committed group here, see the round-trip proofs). -/
def eatOptStr (label : Str) (s : Str) : Option Str × Str :=
  match tryOptStr label s with
  | some (cap, rest) => (some cap, rest)
  | none => (none, s)

/-- The body of the optional group `(?:,\s*<label>\s*(true|false))?`. -/
def tryOptBool (label : Str) (s : Str) : Option (Str × Str) :=
  (litDrop ",".toList s).bind (fun t =>
  (litDrop label (t.dropWhile jsSpace)).bind (fun t1 =>
  match litDrop "true".toList (t1.dropWhile jsSpace) with
  | some t2 => some ("true".toList, t2)
  | none =>
      match litDrop "false".toList (t1.dropWhile jsSpace) with
      | some t2 => some ("false".toList, t2)
      | none => none))

def eatOptBool (label : Str) (s : Str) : Option Str × Str :=
  match tryOptBool label s with
  | some (cap, rest) => (some cap, rest)
  | none => (none, s)

/-- The object regex of `parseFriendsTs`, tried at one position.  On a
match, the entry is built with the source's conversions
(`objMatch[5] || undefined`, `objMatch[6] === 'true' ? true : undefined`,
`objMatch[7] === 'true' ? true : undefined`); the returned remainder is
the input after the match (`lastIndex`). -/
def matchTail (nm dsc url av : Str) (s : Str) : Option (FriendLink × Str) :=
  let q1 := eatOptStr "addDate:".toList s
  let q2 := eatOptBool "recommended:".toList q1.2
  let q3 := eatOptBool "disconnected:".toList q2.2
  (litDrop "\x7d".toList (q3.2.dropWhile jsSpace)).map (fun rest =>
    (⟨nm, dsc, url, av,
      (match q1.1 with
       | some d => if d.isEmpty then none else some d
       | none => none),
      (match q2.1 with
       | some t => if t = "true".toList then some true else none
       | none => none),
      (match q3.1 with
       | some t => if t = "true".toList then some true else none
       | none => none)⟩, rest))

def matchObjectAt (s : Str) : Option (FriendLink × Str) :=
  Option.bind (litDrop "\x7b".toList s) (fun s0 =>
  Option.bind (eatField "name:".toList s0) (fun p1 =>
  Option.bind (litDrop ",".toList p1.2) (fun s1 =>
  Option.bind (eatField "description:".toList s1) (fun p2 =>
  Option.bind (litDrop ",".toList p2.2) (fun s2 =>
  Option.bind (eatField "url:".toList s2) (fun p3 =>
  Option.bind (litDrop ",".toList p3.2) (fun s3 =>
  Option.bind (eatField "avatar:".toList s3) (fun p4 =>
  matchTail p1.1 p2.1 p3.1 p4.1 p4.2))))))))

/-- The `objectRegex.exec` loop of `parseFriendsTs`: scan forward for
successive non-overlapping matches; fuel-structured (the input length
bounds the number of scan steps). -/
def scanObjectsGo : Nat → Str → List FriendLink
  | 0, _ => []
  | _ + 1, [] => []
  | fuel + 1, c :: cs =>
      match matchObjectAt (c :: cs) with
      | some (f, rest) => f :: scanObjectsGo fuel rest
      | none => scanObjectsGo fuel cs

def scanObjects (s : Str) : List FriendLink :=
  scanObjectsGo s.length s

/-- `parseFriendsTs` of the source; `none` models the thrown
`无法解析 friends.ts 文件`. -/
def parseFriendsTs (content : Str) : Option (List FriendLink) :=
  (findConst content).map scanObjects

/-- One entry rendered by `generateFriendsTs` (the `friends.map` body;
`if (f.addDate)` is JS truthiness, so an empty `addDate` is omitted). -/
def renderEntry (f : FriendLink) : Str :=
  "    \x7b\n        name: \"".toList ++ f.name ++
    "\",\n        description: \"".toList ++ f.description ++
    "\",\n        url: \"".toList ++ f.url ++
    "\",\n        avatar: \"".toList ++ f.avatar ++ "\"".toList ++
    (match f.addDate with
     | some d =>
         if d.isEmpty then [] else ",\n        addDate: \"".toList ++ d ++ "\"".toList
     | none => []) ++
    (if f.recommended.getD false then ",\n        recommended: true".toList else []) ++
    (if f.disconnected.getD false then ",\n        disconnected: true".toList else []) ++
    "\n    \x7d".toList

/-- The fixed text of the generated file before the entries. -/
def hdrPre : Str :=
  ("export interface FriendLink \x7b\n    name: string;\n    description: string;\n" ++
   "    url: string;\n    avatar: string;\n    addDate?: string;\n" ++
   "    recommended?: boolean;\n    disconnected?: boolean;\n\x7d\n\n").toList

/-- `generateFriendsTs` of the source (a single template literal). -/
def generateFriendsTs (friends : List FriendLink) : Str :=
  hdrPre ++ constLit ++ " FriendLink[] = [\n".toList ++
    joinSep ",\n".toList (friends.map renderEntry) ++ ",\n];\n".toList

/-- Field condition for the exact round-trip: nonempty, no `"` character
(a quote ends the regex capture early), and no `];` substring (which
would truncate the outer lazy capture). -/
def wfField (s : Str) : Bool :=
  !s.isEmpty && s.all (fun c => c != '"') && !hasSub s "];".toList

def wfOptDate : Option Str → Bool
  | none => true
  | some d => wfField d

/-- The flags are only ever absent or `true` (what the parser itself
produces; a stored `false` would be dropped by the serializer). -/
def wfFlag : Option Bool → Bool
  | none => true
  | some b => b

def wfEntry (f : FriendLink) : Bool :=
  wfField f.name && wfField f.description && wfField f.url && wfField f.avatar &&
    wfOptDate f.addDate && wfFlag f.recommended && wfFlag f.disconnected

def wfList (es : List FriendLink) : Bool := es.all wfEntry

/-- Well-formedness in the words of the claim alone: required fields
present and non-empty, optional flags only `true` when present. -/
def claimWellFormed (f : FriendLink) : Bool :=
  !f.name.isEmpty && !f.description.isEmpty && !f.url.isEmpty && !f.avatar.isEmpty &&
    wfFlag f.recommended && wfFlag f.disconnected

/-- The optional `addDate` text of one rendered entry. -/
def optAdd (f : FriendLink) : Str :=
  match f.addDate with
  | some d =>
      if d.isEmpty then [] else ",\n        addDate: \"".toList ++ (d ++ ['"'])
  | none => []

/-- The optional `recommended` text of one rendered entry. -/
def optRec (f : FriendLink) : Str :=
  if f.recommended.getD false then ",\n        recommended: true".toList else []

/-- The optional `disconnected` text of one rendered entry. -/
def optDis (f : FriendLink) : Str :=
  if f.disconnected.getD false then ",\n        disconnected: true".toList else []

/-- `renderEntry` without its four-space indent: the part of one rendered
entry that the object regex matches. -/
def objBody (f : FriendLink) : Str :=
  "\x7b\n        name: \"".toList ++ f.name ++
    "\",\n        description: \"".toList ++ f.description ++
    "\",\n        url: \"".toList ++ f.url ++
    "\",\n        avatar: \"".toList ++ f.avatar ++ "\"".toList ++
    optAdd f ++ optRec f ++ optDis f ++ "\n    \x7d".toList

/-- The text that follows the first rendered entry inside the captured
array content. -/
def tailBody : List FriendLink → Str
  | [] => ",\n".toList
  | e :: es => ",\n    ".toList ++ objBody e ++ tailBody es

/-- The whole captured array content, restructured entry by entry. -/
def scanShape : List FriendLink → Str
  | [] => "\n,\n".toList
  | e :: es => "\n    ".toList ++ objBody e ++ tailBody es

/-! ## Lemmas about the retry loop -/

theorem attemptOk_false_iff (o : FetchOutcome) :
    attemptOk o = false ↔ ∃ e, attemptResult o = Except.error e := by
  unfold attemptOk
  cases h : attemptResult o <;> simp

theorem attemptOk_true_iff (o : FetchOutcome) :
    attemptOk o = true ↔ ∃ v, attemptResult o = Except.ok v := by
  unfold attemptOk
  cases h : attemptResult o <;> simp

theorem checkResourceGo_reason (pu : Nat → FetchOutcome) (ju : Nat → Nat) :
    ∀ fuel i acc, 1 ≤ fuel →
      (checkResourceGo pu ju i fuel acc).status ≠ LinkStatus.ok →
      (checkResourceGo pu ju i fuel acc).reason.isSome = true := by
  intro fuel
  induction fuel with
  | zero => intro i acc h; omega
  | succ n ih =>
      intro i acc _ hs
      cases n with
      | zero =>
          cases h : attemptResult (pu i) with
          | ok v =>
              obtain ⟨s, t⟩ := v
              simp [checkResourceGo, h] at hs
          | error e => simp [checkResourceGo, h]
      | succ m =>
          cases h : attemptResult (pu i) with
          | ok v =>
              obtain ⟨s, t⟩ := v
              simp [checkResourceGo, h] at hs
          | error e =>
              simp only [checkResourceGo, h] at hs ⊢
              exact ih (i + 1) _ (by omega) hs

/-! ## C1 -/

/-- C1: for an entry whose `disconnected` field is `true` at input,
`checkLink` performs zero network probes (both retry loops are skipped)
and returns the synthetic result with `status = ok`, `avatarStatus = ok`
and response time 0 for both resources. -/
theorem c1_skip_invariant (friend : FriendLink) (pu pa : Nat → FetchOutcome)
    (ju ja : Nat → Nat) (h : friend.disconnected = some true) :
    (checkLink friend pu pa ju ja).result.status = some LinkStatus.ok ∧
    (checkLink friend pu pa ju ja).result.avatarStatus = some LinkStatus.ok ∧
    (checkLink friend pu pa ju ja).result.responseTime = some 0 ∧
    (checkLink friend pu pa ju ja).result.avatarResponseTime = some 0 ∧
    (checkLink friend pu pa ju ja).urlAttempts = 0 ∧
    (checkLink friend pu pa ju ja).avatarAttempts = 0 := by
  simp [checkLink, h]

/-- Witness for C1 at a concrete disconnected entry and concrete
oracles. -/
theorem c1_skip_invariant_witness :
    (checkLink ⟨"n".toList, "d".toList, "u".toList, "a".toList, none, none, some true⟩
        (fun _ => FetchOutcome.reject ⟨"E".toList, "m".toList⟩)
        (fun _ => FetchOutcome.reject ⟨"E".toList, "m".toList⟩)
        (fun _ => 0) (fun _ => 0)).result.status = some LinkStatus.ok ∧
    (checkLink ⟨"n".toList, "d".toList, "u".toList, "a".toList, none, none, some true⟩
        (fun _ => FetchOutcome.reject ⟨"E".toList, "m".toList⟩)
        (fun _ => FetchOutcome.reject ⟨"E".toList, "m".toList⟩)
        (fun _ => 0) (fun _ => 0)).result.avatarStatus = some LinkStatus.ok ∧
    (checkLink ⟨"n".toList, "d".toList, "u".toList, "a".toList, none, none, some true⟩
        (fun _ => FetchOutcome.reject ⟨"E".toList, "m".toList⟩)
        (fun _ => FetchOutcome.reject ⟨"E".toList, "m".toList⟩)
        (fun _ => 0) (fun _ => 0)).result.responseTime = some 0 ∧
    (checkLink ⟨"n".toList, "d".toList, "u".toList, "a".toList, none, none, some true⟩
        (fun _ => FetchOutcome.reject ⟨"E".toList, "m".toList⟩)
        (fun _ => FetchOutcome.reject ⟨"E".toList, "m".toList⟩)
        (fun _ => 0) (fun _ => 0)).result.avatarResponseTime = some 0 ∧
    (checkLink ⟨"n".toList, "d".toList, "u".toList, "a".toList, none, none, some true⟩
        (fun _ => FetchOutcome.reject ⟨"E".toList, "m".toList⟩)
        (fun _ => FetchOutcome.reject ⟨"E".toList, "m".toList⟩)
        (fun _ => 0) (fun _ => 0)).urlAttempts = 0 ∧
    (checkLink ⟨"n".toList, "d".toList, "u".toList, "a".toList, none, none, some true⟩
        (fun _ => FetchOutcome.reject ⟨"E".toList, "m".toList⟩)
        (fun _ => FetchOutcome.reject ⟨"E".toList, "m".toList⟩)
        (fun _ => 0) (fun _ => 0)).avatarAttempts = 0 :=
  c1_skip_invariant _ _ _ _ _ rfl

/-! ## C2 -/

/-- C2 counterexample: `fetchUrl` has a `try`/`finally` with no `catch`,
so a rejection of `fetch` (here: the DNS-failure style rejection Node
raises, `TypeError: fetch failed`) propagates to the caller as a thrown
error instead of being captured in a returned outcome. -/
theorem c2_probe_throws :
    fetchUrl (FetchOutcome.reject ⟨"TypeError".toList, "fetch failed".toList⟩) =
      Except.error ⟨"TypeError".toList, "fetch failed".toList⟩ := rfl

/-- C2 amended: `fetchUrl` never throws for a *received* response — a
non-2xx status is returned with `ok = false` — but rejections of `fetch`
(DNS failure, connection refused, TLS error, and the timeout abort)
propagate to the caller; it is the retry loop in `checkLink` that
catches every failure, so a failed resource always ends with its error
captured in the result's `reason` rather than an escaped exception. -/
theorem c2_probe_amended :
    (∀ e, fetchUrl (FetchOutcome.reject e) = Except.error e) ∧
    (∀ s t, ∃ r, fetchUrl (FetchOutcome.resolve s t) = Except.ok r ∧
      r.status = s ∧ r.time = t ∧ (r.ok = true ↔ 200 ≤ s ∧ s < 300)) ∧
    (∀ pu ju, (checkResource pu ju).status ≠ LinkStatus.ok →
      (checkResource pu ju).reason.isSome = true) := by
  refine ⟨fun e => rfl, fun s t => ⟨_, rfl, rfl, rfl, by simp⟩, fun pu ju h => ?_⟩
  exact checkResourceGo_reason pu ju MAX_RETRIES 0 [] (by decide) h

/-- Witness for C2 amended, at an always-rejecting probe. -/
theorem c2_probe_amended_witness :
    (checkResource (fun _ => FetchOutcome.reject ⟨"TypeError".toList, "fetch failed".toList⟩)
        (fun _ => 0)).status ≠ LinkStatus.ok ∧
    (checkResource (fun _ => FetchOutcome.reject ⟨"TypeError".toList, "fetch failed".toList⟩)
        (fun _ => 0)).reason.isSome = true :=
  ⟨by decide, c2_probe_amended.2.2 _ _ (by decide)⟩

/-! ## C7 -/

/-- C7: when all attempts for a resource fail, the terminal status is
`timeout` exactly when the last attempt's error is the abort raised by
the timeout (`name === 'AbortError'`) and `error` otherwise, and the
recorded latency of the fully-failed resource is 0 (its `httpStatus` is
also never set). -/
theorem c7_terminal_classification (pu : Nat → FetchOutcome) (ju : Nat → Nat)
    (h : ∀ i, i < MAX_RETRIES → attemptOk (pu i) = false) :
    (checkResource pu ju).responseTime = 0 ∧
    (checkResource pu ju).httpStatus = none ∧
    (checkResource pu ju).status ≠ LinkStatus.ok ∧
    ((checkResource pu ju).status = LinkStatus.timeout ↔
      errNameOf (pu (MAX_RETRIES - 1)) = "AbortError".toList) ∧
    ((checkResource pu ju).status = LinkStatus.error ↔
      errNameOf (pu (MAX_RETRIES - 1)) ≠ "AbortError".toList) := by
  obtain ⟨e0, h0⟩ := (attemptOk_false_iff (pu 0)).mp (h 0 (by decide))
  obtain ⟨e1, h1⟩ := (attemptOk_false_iff (pu 1)).mp (h 1 (by decide))
  obtain ⟨e2, h2⟩ := (attemptOk_false_iff (pu 2)).mp (h 2 (by decide))
  have hcr : checkResource pu ju =
      ⟨if e2.name = "AbortError".toList then LinkStatus.timeout else LinkStatus.error,
        none, 0, some e2.message, 3,
        [RETRY_DELAY * 2 ^ 0 + ju 0, RETRY_DELAY * 2 ^ 1 + ju 1]⟩ := by
    simp [checkResource, MAX_RETRIES, checkResourceGo, h0, h1, h2]
  have hname : errNameOf (pu (MAX_RETRIES - 1)) = e2.name := by
    simp [errNameOf, MAX_RETRIES, h2]
  rw [hcr, hname]
  split_ifs with hn
  · simp [hn]
  · simp [hn]
    simpa using hn

/-- Witness for C7: every attempt is aborted by the timeout. -/
theorem c7_terminal_classification_witness :
    (checkResource (fun _ => FetchOutcome.reject ⟨"AbortError".toList, "aborted".toList⟩)
        (fun _ => 0)).responseTime = 0 ∧
    (checkResource (fun _ => FetchOutcome.reject ⟨"AbortError".toList, "aborted".toList⟩)
        (fun _ => 0)).httpStatus = none ∧
    (checkResource (fun _ => FetchOutcome.reject ⟨"AbortError".toList, "aborted".toList⟩)
        (fun _ => 0)).status ≠ LinkStatus.ok ∧
    ((checkResource (fun _ => FetchOutcome.reject ⟨"AbortError".toList, "aborted".toList⟩)
        (fun _ => 0)).status = LinkStatus.timeout ↔
      errNameOf (FetchOutcome.reject ⟨"AbortError".toList, "aborted".toList⟩) =
        "AbortError".toList) ∧
    ((checkResource (fun _ => FetchOutcome.reject ⟨"AbortError".toList, "aborted".toList⟩)
        (fun _ => 0)).status = LinkStatus.error ↔
      errNameOf (FetchOutcome.reject ⟨"AbortError".toList, "aborted".toList⟩) ≠
        "AbortError".toList) :=
  c7_terminal_classification
    (fun _ => FetchOutcome.reject ⟨"AbortError".toList, "aborted".toList⟩)
    (fun _ => 0) (by decide)

/-! ## C8 -/

/-- C8: `checkResource` performs between 1 and `MAX_RETRIES = 3` probe
attempts, stops with status `ok` immediately after the first successful
attempt, waits exactly once between consecutive attempts, and the wait
after the failed zero-based attempt `j` is
`RETRY_DELAY * 2 ^ j + jitter` with `jitter ∈ [0, 100)`, hence a value
in `[1000 * 2 ^ j, 1000 * 2 ^ j + 100)`. -/
theorem c8_retry_backoff (pu : Nat → FetchOutcome) (ju : Nat → Nat)
    (hj : ∀ i, i < MAX_RETRIES → ju i < 100) :
    1 ≤ (checkResource pu ju).attempts ∧
    (checkResource pu ju).attempts ≤ MAX_RETRIES ∧
    (∀ k, k < MAX_RETRIES → attemptOk (pu k) = true →
      (∀ j, j < k → attemptOk (pu j) = false) →
      (checkResource pu ju).attempts = k + 1 ∧
      (checkResource pu ju).status = LinkStatus.ok) ∧
    (checkResource pu ju).delays.length + 1 = (checkResource pu ju).attempts ∧
    (∀ j, j < (checkResource pu ju).delays.length →
      (checkResource pu ju).delays[j]? = some (RETRY_DELAY * 2 ^ j + ju j) ∧
      RETRY_DELAY * 2 ^ j ≤ RETRY_DELAY * 2 ^ j + ju j ∧
      RETRY_DELAY * 2 ^ j + ju j < RETRY_DELAY * 2 ^ j + 100) := by
  have hj0 : ju 0 < 100 := hj 0 (by decide)
  have hj1 : ju 1 < 100 := hj 1 (by decide)
  cases h0 : attemptResult (pu 0) with
  | ok v =>
      obtain ⟨s, t⟩ := v
      have hok0 : attemptOk (pu 0) = true := by simp [attemptOk, h0]
      have hcr : checkResource pu ju = ⟨LinkStatus.ok, some s, t, none, 1, []⟩ := by
        simp [checkResource, MAX_RETRIES, checkResourceGo, h0]
      rw [hcr]
      refine ⟨by norm_num, by norm_num [MAX_RETRIES], ?_, by norm_num, by simp⟩
      intro k hk hok hbelow
      rcases Nat.eq_zero_or_pos k with rfl | hpos
      · exact ⟨rfl, rfl⟩
      · have := hbelow 0 hpos
        rw [hok0] at this
        cases this
  | error e0 =>
      have hng0 : attemptOk (pu 0) = false := by simp [attemptOk, h0]
      cases h1 : attemptResult (pu 1) with
      | ok v =>
          obtain ⟨s, t⟩ := v
          have hok1 : attemptOk (pu 1) = true := by simp [attemptOk, h1]
          have hcr : checkResource pu ju =
              ⟨LinkStatus.ok, some s, t, none, 2, [RETRY_DELAY * 2 ^ 0 + ju 0]⟩ := by
            simp [checkResource, MAX_RETRIES, checkResourceGo, h0, h1]
          rw [hcr]
          refine ⟨by norm_num, by norm_num [MAX_RETRIES], ?_, by norm_num, ?_⟩
          · intro k hk hok hbelow
            simp only [MAX_RETRIES] at hk
            interval_cases k
            · rw [hng0] at hok; cases hok
            · exact ⟨rfl, rfl⟩
            · have := hbelow 1 (by omega)
              rw [hok1] at this
              cases this
          · intro j hjlt
            simp only [List.length_cons, List.length_nil] at hjlt
            interval_cases j
            · exact ⟨rfl, Nat.le_add_right _ _, by omega⟩
      | error e1 =>
          have hng1 : attemptOk (pu 1) = false := by simp [attemptOk, h1]
          have hleaf : ∀ res : ResourceOutcome, res.attempts = 3 →
              res.delays = [RETRY_DELAY * 2 ^ 0 + ju 0, RETRY_DELAY * 2 ^ 1 + ju 1] →
              checkResource pu ju = res →
              1 ≤ (checkResource pu ju).attempts ∧
              (checkResource pu ju).attempts ≤ MAX_RETRIES ∧
              (∀ k, k < MAX_RETRIES → attemptOk (pu k) = true →
                (∀ j, j < k → attemptOk (pu j) = false) →
                (checkResource pu ju).attempts = k + 1 ∧
                (checkResource pu ju).status = LinkStatus.ok) ∧
              (checkResource pu ju).delays.length + 1 = (checkResource pu ju).attempts ∧
              (∀ j, j < (checkResource pu ju).delays.length →
                (checkResource pu ju).delays[j]? = some (RETRY_DELAY * 2 ^ j + ju j) ∧
                RETRY_DELAY * 2 ^ j ≤ RETRY_DELAY * 2 ^ j + ju j ∧
                RETRY_DELAY * 2 ^ j + ju j < RETRY_DELAY * 2 ^ j + 100) := by
            intro res hatt hdel hcr
            rw [hcr, hatt, hdel]
            refine ⟨by norm_num, by norm_num [MAX_RETRIES], ?_, by norm_num, ?_⟩
            · intro k hk hok hbelow
              simp only [MAX_RETRIES] at hk
              interval_cases k
              · rw [hng0] at hok; cases hok
              · rw [hng1] at hok; cases hok
              · have hst : (checkResource pu ju).status = LinkStatus.ok := by
                  obtain ⟨v, h2⟩ := (attemptOk_true_iff (pu 2)).mp hok
                  obtain ⟨s, t⟩ := v
                  simp [checkResource, MAX_RETRIES, checkResourceGo, h0, h1, h2]
                rw [hcr, hatt] at *
                exact ⟨rfl, hst⟩
            · intro j hjlt
              simp only [List.length_cons, List.length_nil] at hjlt
              interval_cases j
              · exact ⟨rfl, Nat.le_add_right _ _, by omega⟩
              · exact ⟨rfl, Nat.le_add_right _ _, by omega⟩
          cases h2 : attemptResult (pu 2) with
          | ok v =>
              obtain ⟨s, t⟩ := v
              exact hleaf ⟨LinkStatus.ok, some s, t, none, 3,
                  [RETRY_DELAY * 2 ^ 0 + ju 0, RETRY_DELAY * 2 ^ 1 + ju 1]⟩ rfl rfl
                (by simp [checkResource, MAX_RETRIES, checkResourceGo, h0, h1, h2])
          | error e2 =>
              exact hleaf ⟨if e2.name = "AbortError".toList then LinkStatus.timeout
                    else LinkStatus.error, none, 0, some e2.message, 3,
                  [RETRY_DELAY * 2 ^ 0 + ju 0, RETRY_DELAY * 2 ^ 1 + ju 1]⟩ rfl rfl
                (by simp [checkResource, MAX_RETRIES, checkResourceGo, h0, h1, h2])

/-- Witness for C8: the first two attempts time out, the third returns
HTTP 200, with jitter 7. -/
theorem c8_retry_backoff_witness :
    1 ≤ (checkResource (fun i => if i = 2 then FetchOutcome.resolve 200 42
        else FetchOutcome.reject ⟨"AbortError".toList, "aborted".toList⟩)
        (fun _ => 7)).attempts ∧
    (checkResource (fun i => if i = 2 then FetchOutcome.resolve 200 42
        else FetchOutcome.reject ⟨"AbortError".toList, "aborted".toList⟩)
        (fun _ => 7)).attempts ≤ MAX_RETRIES ∧
    (∀ k, k < MAX_RETRIES →
      attemptOk ((fun i => if i = 2 then FetchOutcome.resolve 200 42
        else FetchOutcome.reject ⟨"AbortError".toList, "aborted".toList⟩) k) = true →
      (∀ j, j < k → attemptOk ((fun i => if i = 2 then FetchOutcome.resolve 200 42
        else FetchOutcome.reject ⟨"AbortError".toList, "aborted".toList⟩) j) = false) →
      (checkResource (fun i => if i = 2 then FetchOutcome.resolve 200 42
        else FetchOutcome.reject ⟨"AbortError".toList, "aborted".toList⟩)
        (fun _ => 7)).attempts = k + 1 ∧
      (checkResource (fun i => if i = 2 then FetchOutcome.resolve 200 42
        else FetchOutcome.reject ⟨"AbortError".toList, "aborted".toList⟩)
        (fun _ => 7)).status = LinkStatus.ok) ∧
    (checkResource (fun i => if i = 2 then FetchOutcome.resolve 200 42
        else FetchOutcome.reject ⟨"AbortError".toList, "aborted".toList⟩)
        (fun _ => 7)).delays.length + 1 =
      (checkResource (fun i => if i = 2 then FetchOutcome.resolve 200 42
        else FetchOutcome.reject ⟨"AbortError".toList, "aborted".toList⟩)
        (fun _ => 7)).attempts ∧
    (∀ j, j < (checkResource (fun i => if i = 2 then FetchOutcome.resolve 200 42
        else FetchOutcome.reject ⟨"AbortError".toList, "aborted".toList⟩)
        (fun _ => 7)).delays.length →
      (checkResource (fun i => if i = 2 then FetchOutcome.resolve 200 42
        else FetchOutcome.reject ⟨"AbortError".toList, "aborted".toList⟩)
        (fun _ => 7)).delays[j]? = some (RETRY_DELAY * 2 ^ j + (fun _ => 7) j) ∧
      RETRY_DELAY * 2 ^ j ≤ RETRY_DELAY * 2 ^ j + (fun _ => 7) j ∧
      RETRY_DELAY * 2 ^ j + (fun _ => 7) j < RETRY_DELAY * 2 ^ j + 100) :=
  c8_retry_backoff
    (fun i => if i = 2 then FetchOutcome.resolve 200 42
      else FetchOutcome.reject ⟨"AbortError".toList, "aborted".toList⟩)
    (fun _ => 7) (by decide)

/-! ## C5 -/

/-- C5: the persisted failure report is non-empty exactly when the
process exits non-zero; recoveries alone (the `failed.isEmpty` branch)
leave the exit code 0. -/
theorem c5_exit_correlation (friends : List FriendLink)
    (results : List LinkCheckResult) :
    (mainStep friends results).newlyFailing ≠ [] ↔
      (mainStep friends results).exitCode ≠ 0 := by
  by_cases h : (results.filter failedFilter).isEmpty
  · simp [mainStep, h]
  · simp only [mainStep, h, Bool.false_eq_true, if_false]
    constructor
    · intro _; simp
    · intro _
      simp only [ne_eq, List.map_eq_nil_iff]
      intro hnil
      rw [hnil] at h
      simp at h

/-! ## Lemmas about reconciliation -/

theorem updateEntry_name (results : List LinkCheckResult) (f : FriendLink) :
    (updateEntry results f).name = f.name := by
  unfold updateEntry
  split
  · split_ifs <;> rfl
  · rfl

theorem sameCore_updateEntry (results : List LinkCheckResult) (f : FriendLink) :
    sameCore (updateEntry results f) f := by
  unfold updateEntry sameCore
  split
  · split_ifs <;> exact ⟨rfl, rfl, rfl, rfl, rfl, rfl⟩
  · exact ⟨rfl, rfl, rfl, rfl, rfl, rfl⟩

theorem sameCore_recoverEntry (f : FriendLink) : sameCore (recoverEntry f) f := by
  unfold recoverEntry sameCore
  split_ifs <;> exact ⟨rfl, rfl, rfl, rfl, rfl, rfl⟩

theorem forall₂_map_self {g : FriendLink → FriendLink}
    (h : ∀ f, sameCore (g f) f) (l : List FriendLink) :
    List.Forall₂ sameCore (l.map g) l := by
  induction l with
  | nil => simp
  | cons a l ih => exact List.Forall₂.cons (h a) ih

theorem map_ne_iff_any {α β : Type} [BEq β] [LawfulBEq β] (l : List α) (f g : α → β) :
    l.map f ≠ l.map g ↔ l.any (fun a => f a != g a) = true := by
  induction l with
  | nil => simp
  | cons a l ih =>
      by_cases hfa : f a = g a
      · simp [hfa, ih, bne_iff_ne]
      · simp [hfa, bne_iff_ne]

theorem zip_map_any_disc (l : List FriendLink) (g : FriendLink → FriendLink) :
    ((l.map g).zip l).any (fun p => p.1.disconnected != p.2.disconnected) =
      l.any (fun a => (g a).disconnected != a.disconnected) := by
  induction l with
  | nil => rfl
  | cons a l ih => simp [ih]

theorem recover_disc_bne (f : FriendLink) :
    ((recoverEntry f).disconnected != f.disconnected) = f.disconnected.getD false := by
  unfold recoverEntry
  cases h : f.disconnected with
  | none => simp [h]
  | some b => cases b <;> simp [h]

theorem recover_not_truthy (f : FriendLink) :
    (recoverEntry f).disconnected.getD false = false := by
  unfold recoverEntry
  split_ifs with h
  · rfl
  · simpa using h

theorem updateEntry_idem (results : List LinkCheckResult) (f : FriendLink) :
    updateEntry results (updateEntry results f) = updateEntry results f := by
  cases hf : results.find? (fun r => r.name == f.name) with
  | none =>
      have h1 : updateEntry results f = f := by simp [updateEntry, hf]
      rw [h1, h1]
  | some r =>
      by_cases hp : plainFails r
      · have h1 : updateEntry results f = { f with disconnected := some true } := by
          simp [updateEntry, hf, hp]
        rw [h1]
        simp [updateEntry, hf, hp]
      · by_cases hd : f.disconnected.getD false
        · have h1 : updateEntry results f = { f with disconnected := none } := by
            simp [updateEntry, hf, hp, hd]
          rw [h1]
          simp [updateEntry, hf, hp]
        · have h1 : updateEntry results f = f := by simp [updateEntry, hf, hp, hd]
          rw [h1, h1]

theorem mainStep_pos (friends : List FriendLink) (results : List LinkCheckResult)
    (h : (results.filter failedFilter).isEmpty = true) :
    mainStep friends results =
      { changed := !(friends.filter (fun f => f.disconnected.getD false)).isEmpty,
        newlyFailing := [],
        updatedEntries := friends.map recoverEntry,
        exitCode := 0 } := by
  simp [mainStep, h]

theorem mainStep_neg (friends : List FriendLink) (results : List LinkCheckResult)
    (h : (results.filter failedFilter).isEmpty = false) :
    mainStep friends results =
      { changed := ((friends.map (updateEntry results)).zip friends).any
          (fun p => p.1.disconnected != p.2.disconnected),
        newlyFailing := (results.filter failedFilter).map mkInfo,
        updatedEntries := friends.map (updateEntry results),
        exitCode := 1 } := by
  simp [mainStep, h]

/-! ## C9 -/

/-- C9: the reconciliation of `main` keeps the entry list's order and
count (it is a `map` over the input), each output entry agrees with its
input entry on every field except possibly `disconnected`, and the
rewrite condition (`changed`) holds exactly when some entry's
`disconnected` field differs between input and output. -/
theorem c9_frame_effect (friends : List FriendLink) (results : List LinkCheckResult) :
    (mainStep friends results).updatedEntries.length = friends.length ∧
    List.Forall₂ sameCore (mainStep friends results).updatedEntries friends ∧
    ((mainStep friends results).changed = true ↔
      (mainStep friends results).updatedEntries.map FriendLink.disconnected ≠
        friends.map FriendLink.disconnected) := by
  cases h : (results.filter failedFilter).isEmpty
  · rw [mainStep_neg friends results h]
    refine ⟨by simp, forall₂_map_self (sameCore_updateEntry results) friends, ?_⟩
    rw [zip_map_any_disc, List.map_map,
      map_ne_iff_any friends (FriendLink.disconnected ∘ updateEntry results)
        FriendLink.disconnected]
    simp [Function.comp]
  · rw [mainStep_pos friends results h]
    refine ⟨by simp, forall₂_map_self sameCore_recoverEntry friends, ?_⟩
    rw [List.map_map, map_ne_iff_any friends (FriendLink.disconnected ∘ recoverEntry)
      FriendLink.disconnected]
    have hfun : (fun a => (FriendLink.disconnected ∘ recoverEntry) a !=
        FriendLink.disconnected a) = (fun f : FriendLink => f.disconnected.getD false) := by
      funext a
      simp only [Function.comp_apply]
      exact recover_disc_bne a
    rw [hfun]
    simp [List.isEmpty_iff, List.filter_eq_nil_iff, List.any_eq_true]

/-! ## C10 -/

/-- C10: reconciliation is idempotent — running the reconciliation step
of `main` again on the updated entry list with the same results yields
`changed = false` (so the entry file would not be rewritten a second
time). -/
theorem c10_reconcile_idempotent (friends : List FriendLink)
    (results : List LinkCheckResult) :
    (mainStep (mainStep friends results).updatedEntries results).changed = false := by
  cases h : (results.filter failedFilter).isEmpty
  · rw [mainStep_neg friends results h, mainStep_neg _ results h]
    simp only [RunReport.updatedEntries]
    rw [zip_map_any_disc]
    rw [List.any_eq_false]
    intro a ha
    obtain ⟨b, _, rfl⟩ := List.mem_map.mp ha
    rw [updateEntry_idem]
    simp
  · rw [mainStep_pos friends results h, mainStep_pos _ results h]
    show (!(List.filter (fun f => f.disconnected.getD false)
        (friends.map recoverEntry)).isEmpty) = false
    simp only [Bool.not_eq_false', List.isEmpty_iff, List.filter_eq_nil_iff]
    intro a ha
    obtain ⟨b, _, rfl⟩ := List.mem_map.mp ha
    simp [recover_not_truthy]

/-! ## Name-alignment lemmas (results are matched to entries by `name`) -/

theorem checkLink_result_name (friend : FriendLink) (pu pa : Nat → FetchOutcome)
    (ju ja : Nat → Nat) :
    (checkLink friend pu pa ju ja).result.name = friend.name := by
  unfold checkLink
  split_ifs <;> rfl

theorem runChecks_names (friends : List FriendLink) (pu pa : Nat → Nat → FetchOutcome)
    (ju ja : Nat → Nat → Nat) :
    ((runChecks friends pu pa ju ja).map CheckTrace.result).map LinkCheckResult.name =
      friends.map FriendLink.name := by
  unfold runChecks
  rw [List.map_map, List.map_map]
  have hfun : ((LinkCheckResult.name ∘ CheckTrace.result) ∘
      fun p : Nat × FriendLink => checkLink p.2 (pu p.1) (pa p.1) (ju p.1) (ja p.1)) =
      (FriendLink.name ∘ Prod.snd) := by
    funext p
    exact checkLink_result_name p.2 (pu p.1) (pa p.1) (ju p.1) (ja p.1)
  rw [hfun, ← List.map_map, List.enum_map_snd]

theorem runChecks_getElem? (friends : List FriendLink) (pu pa : Nat → Nat → FetchOutcome)
    (ju ja : Nat → Nat → Nat) (i : Nat) (hi : i < friends.length) :
    (runChecks friends pu pa ju ja)[i]? =
      some (checkLink friends[i] (pu i) (pa i) (ju i) (ja i)) := by
  unfold runChecks
  rw [List.getElem?_map, List.getElem?_enum, List.getElem?_eq_getElem hi]
  rfl

theorem names_mem_of_map_eq (l : List FriendLink) (r : List LinkCheckResult)
    (h : r.map LinkCheckResult.name = l.map FriendLink.name) (x : LinkCheckResult)
    (hx : x ∈ r) : x.name ∈ l.map FriendLink.name := by
  rw [← h]
  exact List.mem_map.mpr ⟨x, hx, rfl⟩

theorem find?_name_aligned (l : List FriendLink) (r : List LinkCheckResult)
    (h : r.map LinkCheckResult.name = l.map FriendLink.name)
    (hnd : (l.map FriendLink.name).Nodup) (i : Nat) (hi : i < l.length) :
    r.find? (fun x => x.name == l[i].name) = r[i]? := by
  induction l generalizing r i with
  | nil => simp at hi
  | cons a l ih =>
      cases r with
      | nil => simp at h
      | cons b r' =>
          simp only [List.map_cons, List.cons.injEq] at h
          obtain ⟨hb, hr⟩ := h
          simp only [List.map_cons, List.nodup_cons] at hnd
          obtain ⟨hna, hnd'⟩ := hnd
          cases i with
          | zero => simp [List.find?_cons, hb]
          | succ j =>
              have hj : j < l.length := by simpa using hi
              have hmem : l[j].name ∈ l.map FriendLink.name :=
                List.mem_map.mpr ⟨l[j], List.getElem_mem hj, rfl⟩
              have hne : (b.name == (a :: l)[j + 1].name) = false := by
                simp only [List.getElem_cons_succ]
                rw [hb]
                simp only [beq_eq_false_iff_ne, ne_eq]
                intro he
                rw [he] at hna
                exact hna hmem
              rw [List.find?_cons, hne]
              have := ih r' hr hnd' j hj
              simp only [List.getElem_cons_succ]
              rw [this]
              try simp

theorem filter_name_aligned (l : List FriendLink) (r : List LinkCheckResult)
    (h : r.map LinkCheckResult.name = l.map FriendLink.name)
    (hnd : (l.map FriendLink.name).Nodup) (i : Nat) (hi : i < l.length)
    (q : LinkCheckResult → Bool) (ri : LinkCheckResult) (hri : r[i]? = some ri) :
    r.filter (fun x => (x.name == l[i].name) && q x) = if q ri then [ri] else [] := by
  induction l generalizing r i with
  | nil => simp at hi
  | cons a l ih =>
      cases r with
      | nil => simp at hri
      | cons b r' =>
          simp only [List.map_cons, List.cons.injEq] at h
          obtain ⟨hb, hr⟩ := h
          simp only [List.map_cons, List.nodup_cons] at hnd
          obtain ⟨hna, hnd'⟩ := hnd
          cases i with
          | zero =>
              have hbri : b = ri := by simpa using hri
              subst hbri
              have htail : r'.filter (fun x => (x.name == (a :: l)[0].name) && q x) = [] := by
                rw [List.filter_eq_nil_iff]
                intro x hx
                have hxn : x.name ∈ l.map FriendLink.name := names_mem_of_map_eq l r' hr x hx
                have hne : x.name ≠ a.name := by
                  intro he
                  rw [he] at hxn
                  exact hna hxn
                simp [hne]
              rw [List.filter_cons]
              simp only [List.getElem_cons_zero] at htail ⊢
              rw [htail, hb]
              simp only [beq_self_eq_true, Bool.true_and]
          | succ j =>
              have hj : j < l.length := by simpa using hi
              have hmem : l[j].name ∈ l.map FriendLink.name :=
                List.mem_map.mpr ⟨l[j], List.getElem_mem hj, rfl⟩
              have hne : ((b.name == (a :: l)[j + 1].name) && q b) = false := by
                simp only [List.getElem_cons_succ]
                rw [hb]
                have : (a.name == l[j].name) = false := by
                  simp only [beq_eq_false_iff_ne, ne_eq]
                  intro he
                  rw [he] at hna
                  exact hna hmem
                rw [this]
                rfl
              rw [List.filter_cons]
              rw [hne]
              simp only [List.getElem_cons_succ] at *
              have hri' : r'[j]? = some ri := by simpa using hri
              exact ih r' hr hnd' j hj hri'

theorem updateEntry_eq (results : List LinkCheckResult) (f : FriendLink)
    (r : LinkCheckResult)
    (h : results.find? (fun x => x.name == f.name) = some r) :
    updateEntry results f =
      if plainFails r then { f with disconnected := some true }
      else if f.disconnected.getD false then { f with disconnected := none }
      else f := by
  unfold updateEntry
  rw [h]

/-! ## C3 -/

/-- C3: with unique entry names (the spec's stated standing assumption),
an entry that enters the run with `disconnected = true` is never probed
(zero URL and avatar attempts) and leaves the run with the flag removed
in the updated entry list: its synthetic ok/ok result is treated as a
recovery by both branches of the reconciliation, regardless of the
entry's actual reachability. -/
theorem c3_flag_never_survives (friends : List FriendLink)
    (pu pa : Nat → Nat → FetchOutcome) (ju ja : Nat → Nat → Nat)
    (hnd : (friends.map FriendLink.name).Nodup) (i : Nat) (hi : i < friends.length)
    (hd : friends[i].disconnected = some true) :
    ((runChecks friends pu pa ju ja).map CheckTrace.urlAttempts)[i]? = some 0 ∧
    ((runChecks friends pu pa ju ja).map CheckTrace.avatarAttempts)[i]? = some 0 ∧
    (mainStep friends
        ((runChecks friends pu pa ju ja).map CheckTrace.result)).updatedEntries[i]? =
      some { friends[i] with disconnected := none } := by
  have htr := runChecks_getElem? friends pu pa ju ja i hi
  have htrval : checkLink friends[i] (pu i) (pa i) (ju i) (ja i) =
      ⟨⟨friends[i].name, friends[i].url, friends[i].avatar, some LinkStatus.ok, none,
          some 0, none, some LinkStatus.ok, none, some 0⟩, 0, 0, [], []⟩ := by
    simp [checkLink, hd]
  refine ⟨?_, ?_, ?_⟩
  · rw [List.getElem?_map, htr, htrval]
    rfl
  · rw [List.getElem?_map, htr, htrval]
    rfl
  · have hnames : ((runChecks friends pu pa ju ja).map CheckTrace.result).map
        LinkCheckResult.name = friends.map FriendLink.name :=
      runChecks_names friends pu pa ju ja
    have hresi : ((runChecks friends pu pa ju ja).map CheckTrace.result)[i]? =
        some ⟨friends[i].name, friends[i].url, friends[i].avatar,
          some LinkStatus.ok, none, some 0, none, some LinkStatus.ok, none, some 0⟩ := by
      rw [List.getElem?_map, htr, htrval]
      rfl
    have hfind : ((runChecks friends pu pa ju ja).map CheckTrace.result).find?
        (fun x => x.name == friends[i].name) =
        ((runChecks friends pu pa ju ja).map CheckTrace.result)[i]? :=
      find?_name_aligned friends _ hnames hnd i hi
    cases hE : (((runChecks friends pu pa ju ja).map CheckTrace.result).filter
        failedFilter).isEmpty
    · rw [mainStep_neg friends _ hE]
      show (friends.map (updateEntry ((runChecks friends pu pa ju ja).map
        CheckTrace.result)))[i]? = _
      rw [List.getElem?_map, List.getElem?_eq_getElem hi]
      simp only [Option.map_some']
      rw [updateEntry_eq _ _ _ (hfind.trans hresi)]
      simp [plainFails, hd]
    · rw [mainStep_pos friends _ hE]
      show (friends.map recoverEntry)[i]? = _
      rw [List.getElem?_map, List.getElem?_eq_getElem hi]
      simp only [Option.map_some']
      simp [recoverEntry, hd]

/-- Witness for C3 at a one-entry list whose entry is flagged
disconnected and whose oracles would reject every probe. -/
theorem c3_flag_never_survives_witness :
    ((runChecks [⟨"n".toList, "d".toList, "u".toList, "a".toList, none, none, some true⟩]
        (fun _ _ => FetchOutcome.reject ⟨"E".toList, "m".toList⟩)
        (fun _ _ => FetchOutcome.reject ⟨"E".toList, "m".toList⟩)
        (fun _ _ => 0) (fun _ _ => 0)).map CheckTrace.urlAttempts)[0]? = some 0 ∧
    ((runChecks [⟨"n".toList, "d".toList, "u".toList, "a".toList, none, none, some true⟩]
        (fun _ _ => FetchOutcome.reject ⟨"E".toList, "m".toList⟩)
        (fun _ _ => FetchOutcome.reject ⟨"E".toList, "m".toList⟩)
        (fun _ _ => 0) (fun _ _ => 0)).map CheckTrace.avatarAttempts)[0]? = some 0 ∧
    (mainStep [⟨"n".toList, "d".toList, "u".toList, "a".toList, none, none, some true⟩]
        ((runChecks [⟨"n".toList, "d".toList, "u".toList, "a".toList, none, none, some true⟩]
          (fun _ _ => FetchOutcome.reject ⟨"E".toList, "m".toList⟩)
          (fun _ _ => FetchOutcome.reject ⟨"E".toList, "m".toList⟩)
          (fun _ _ => 0) (fun _ _ => 0)).map CheckTrace.result)).updatedEntries[0]? =
      some { (⟨"n".toList, "d".toList, "u".toList, "a".toList, none, none, some true⟩ :
        FriendLink) with disconnected := none } :=
  c3_flag_never_survives _ _ _ _ _ (by decide) 0 (by decide) (by decide)

/-! ## C4 -/

/-- C4 counterexample: result B fails in the claim's sense
(`urlStatus ≠ OK`) and the reconciliation does set `disconnected = true`
on its entry, but because B's URL reason contains `已标记为失联` the
`failed` filter excludes it, so no `{name, url, reason}` record for B is
appended to `newlyFailing` — the claim's "fails iff" biconditional does
not govern the report. -/
theorem c4_fails_guard_cex :
    plainFails ⟨"B".toList, "uB".toList, "aB".toList, some LinkStatus.error, none, some 0,
        some "已标记为失联".toList, some LinkStatus.ok, some 200, some 5⟩ = true ∧
    (mainStep
        [⟨"A".toList, "d".toList, "uA".toList, "aA".toList, none, none, none⟩,
         ⟨"B".toList, "d".toList, "uB".toList, "aB".toList, none, none, none⟩]
        [⟨"A".toList, "uA".toList, "aA".toList, some LinkStatus.ok, some 200, some 5, none,
            some LinkStatus.error, none, some 0⟩,
         ⟨"B".toList, "uB".toList, "aB".toList, some LinkStatus.error, none, some 0,
            some "已标记为失联".toList, some LinkStatus.ok, some 200, some 5⟩]).newlyFailing.map
        DisconnectedInfo.name = ["A".toList] ∧
    (mainStep
        [⟨"A".toList, "d".toList, "uA".toList, "aA".toList, none, none, none⟩,
         ⟨"B".toList, "d".toList, "uB".toList, "aB".toList, none, none, none⟩]
        [⟨"A".toList, "uA".toList, "aA".toList, some LinkStatus.ok, some 200, some 5, none,
            some LinkStatus.error, none, some 0⟩,
         ⟨"B".toList, "uB".toList, "aB".toList, some LinkStatus.error, none, some 0,
            some "已标记为失联".toList, some LinkStatus.ok, some 200, some 5⟩]).updatedEntries.map
        FriendLink.disconnected = [some true, some true] := by
  decide

/-- C4 amended: with results matched to entries by unique names, a
`{name, url, reason}` record is appended to `newlyFailing` for an entry
iff its result passes the *guarded* `failed` filter — `urlStatus ≠ OK`
and the URL reason does not contain `已标记为失联` (a vestigial guard for
an old skip-result shape) — or `avatarStatus ≠ OK`; `reason` comma-joins
the failing sides with the terminal status kind and error text on the
URL side (`mkInfo`).  The `disconnected` flag is instead governed by the
plain condition `urlStatus ≠ OK ∨ avatarStatus ≠ OK`, and only in a run
where at least one result passes the guarded filter; otherwise the run
only clears flags.  A non-failing entry with `disconnected = true` has
the flag removed; all other entries pass through unchanged. -/
theorem c4_reconcile_amended (friends : List FriendLink) (results : List LinkCheckResult)
    (hnames : results.map LinkCheckResult.name = friends.map FriendLink.name)
    (hnd : (friends.map FriendLink.name).Nodup) (i : Nat) (hi : i < friends.length) :
    ∃ r, results[i]? = some r ∧
      ((mainStep friends results).newlyFailing.filter
          (fun d => d.name == friends[i].name) =
        if failedFilter r then [mkInfo r] else []) ∧
      ((mainStep friends results).updatedEntries[i]? =
        some (if (results.filter failedFilter).isEmpty then
            (if friends[i].disconnected.getD false then
              { friends[i] with disconnected := none } else friends[i])
          else
            (if plainFails r then { friends[i] with disconnected := some true }
             else if friends[i].disconnected.getD false then
               { friends[i] with disconnected := none }
             else friends[i]))) := by
  have hlen : results.length = friends.length := by
    have h := congrArg List.length hnames
    simpa using h
  have hir : i < results.length := by omega
  have hresi : results[i]? = some results[i] := List.getElem?_eq_getElem hir
  refine ⟨results[i], hresi, ?_, ?_⟩
  · cases hE : (results.filter failedFilter).isEmpty
    · rw [mainStep_neg friends results hE]
      show ((results.filter failedFilter).map mkInfo).filter
          (fun d => d.name == friends[i].name) = _
      rw [List.filter_map]
      have hcomp : ((fun d : DisconnectedInfo => d.name == friends[i].name) ∘ mkInfo) =
          (fun x : LinkCheckResult => x.name == friends[i].name) := rfl
      rw [hcomp, List.filter_filter]
      have hbeta : (fun a : LinkCheckResult =>
          (fun x : LinkCheckResult => x.name == friends[i].name) a && failedFilter a) =
          (fun x : LinkCheckResult => (x.name == friends[i].name) && failedFilter x) := rfl
      rw [hbeta]
      rw [filter_name_aligned friends results hnames hnd i hi failedFilter results[i] hresi]
      cases hf : failedFilter results[i] <;> simp [hf]
    · rw [mainStep_pos friends results hE]
      have hff : failedFilter results[i] = false := by
        have hmem : results[i] ∈ results := List.getElem_mem hir
        have hnil := List.isEmpty_iff.mp hE
        rw [List.filter_eq_nil_iff] at hnil
        simpa using hnil results[i] hmem
      show ([] : List DisconnectedInfo).filter (fun d => d.name == friends[i].name) = _
      simp [hff]
  · cases hE : (results.filter failedFilter).isEmpty
    · rw [mainStep_neg friends results hE]
      show (friends.map (updateEntry results))[i]? = _
      rw [List.getElem?_map, List.getElem?_eq_getElem hi]
      simp only [Option.map_some']
      have hfind : results.find? (fun x => x.name == friends[i].name) = results[i]? :=
        find?_name_aligned friends results hnames hnd i hi
      rw [updateEntry_eq _ _ _ (hfind.trans hresi)]
      simp [hE]
    · rw [mainStep_pos friends results hE]
      show (friends.map recoverEntry)[i]? = _
      rw [List.getElem?_map, List.getElem?_eq_getElem hi]
      simp only [Option.map_some']
      simp [recoverEntry, hE]

/-- Witness for C4 amended at a one-entry list whose result has a failed
avatar. -/
theorem c4_reconcile_amended_witness :
    ∃ r, ([⟨"A".toList, "uA".toList, "aA".toList, some LinkStatus.ok, some 200, some 5,
        none, some LinkStatus.error, none, some 0⟩] :
          List LinkCheckResult)[0]? = some r ∧
      ((mainStep [⟨"A".toList, "d".toList, "uA".toList, "aA".toList, none, none, none⟩]
          [⟨"A".toList, "uA".toList, "aA".toList, some LinkStatus.ok, some 200, some 5,
            none, some LinkStatus.error, none, some 0⟩]).newlyFailing.filter
          (fun d => d.name ==
            ([⟨"A".toList, "d".toList, "uA".toList, "aA".toList, none, none, none⟩] :
              List FriendLink)[0].name) =
        if failedFilter r then [mkInfo r] else []) ∧
      ((mainStep [⟨"A".toList, "d".toList, "uA".toList, "aA".toList, none, none, none⟩]
          [⟨"A".toList, "uA".toList, "aA".toList, some LinkStatus.ok, some 200, some 5,
            none, some LinkStatus.error, none, some 0⟩]).updatedEntries[0]? =
        some (if (([⟨"A".toList, "uA".toList, "aA".toList, some LinkStatus.ok, some 200,
              some 5, none, some LinkStatus.error, none, some 0⟩] :
                List LinkCheckResult).filter failedFilter).isEmpty then
            (if ([⟨"A".toList, "d".toList, "uA".toList, "aA".toList, none, none, none⟩] :
                List FriendLink)[0].disconnected.getD false then
              { ([⟨"A".toList, "d".toList, "uA".toList, "aA".toList, none, none, none⟩] :
                  List FriendLink)[0] with disconnected := none }
            else ([⟨"A".toList, "d".toList, "uA".toList, "aA".toList, none, none, none⟩] :
                List FriendLink)[0])
          else
            (if plainFails r then
              { ([⟨"A".toList, "d".toList, "uA".toList, "aA".toList, none, none, none⟩] :
                  List FriendLink)[0] with disconnected := some true }
             else if ([⟨"A".toList, "d".toList, "uA".toList, "aA".toList, none, none,
                 none⟩] : List FriendLink)[0].disconnected.getD false then
               { ([⟨"A".toList, "d".toList, "uA".toList, "aA".toList, none, none, none⟩] :
                   List FriendLink)[0] with disconnected := none }
             else ([⟨"A".toList, "d".toList, "uA".toList, "aA".toList, none, none, none⟩] :
                 List FriendLink)[0]))) :=
  c4_reconcile_amended
    [⟨"A".toList, "d".toList, "uA".toList, "aA".toList, none, none, none⟩]
    [⟨"A".toList, "uA".toList, "aA".toList, some LinkStatus.ok, some 200, some 5,
      none, some LinkStatus.error, none, some 0⟩]
    (by decide) (by decide) 0 (by decide)

/-! ## Lemmas about the textual encoding -/

theorem litDrop_append (pat rest : Str) : litDrop pat (pat ++ rest) = some rest := by
  induction pat with
  | nil => rfl
  | cons p ps ih => simp [litDrop, ih]

theorem litDrop_suffix (pat : Str) :
    ∀ s r : Str, litDrop pat s = some r → r <:+ s := by
  induction pat with
  | nil =>
      intro s r h
      simp only [litDrop, Option.some.injEq] at h
      exact h ▸ List.suffix_refl s
  | cons p ps ih =>
      intro s r h
      cases s with
      | nil => simp [litDrop] at h
      | cons c cs =>
          simp only [litDrop] at h
          split_ifs at h with hpc
          exact (ih cs r h).trans (List.suffix_cons c cs)

theorem takeWhile_field (p : Char → Bool) (xs : Str) (y : Char) (ys : Str)
    (hx : ∀ c ∈ xs, p c = true) (hy : p y = false) :
    (xs ++ y :: ys).takeWhile p = xs := by
  induction xs with
  | nil => simp [List.takeWhile_cons, hy]
  | cons a l ih =>
      have ha : p a = true := hx a (List.mem_cons_self a l)
      simp only [List.cons_append, List.takeWhile_cons, ha, if_true]
      rw [ih (fun c hc => hx c (List.mem_cons_of_mem a hc))]

theorem dropWhile_field (p : Char → Bool) (xs : Str) (y : Char) (ys : Str)
    (hx : ∀ c ∈ xs, p c = true) (hy : p y = false) :
    (xs ++ y :: ys).dropWhile p = y :: ys := by
  induction xs with
  | nil => simp [List.dropWhile_cons, hy]
  | cons a l ih =>
      have ha : p a = true := hx a (List.mem_cons_self a l)
      simp only [List.cons_append, List.dropWhile_cons, ha, if_true]
      exact ih (fun c hc => hx c (List.mem_cons_of_mem a hc))

theorem dropWhile_all_append (p : Char → Bool) (ws t : Str)
    (h : ∀ c ∈ ws, p c = true) :
    (ws ++ t).dropWhile p = t.dropWhile p := by
  induction ws with
  | nil => rfl
  | cons a l ih =>
      have ha : p a = true := h a (List.mem_cons_self a l)
      simp only [List.cons_append, List.dropWhile_cons, ha, if_true]
      exact ih (fun c hc => h c (List.mem_cons_of_mem a hc))

/-! ## Step lemmas for the object regex against rendered text -/

theorem eatField_render (l0 : Char) (ltl ws cap X : Str)
    (hws : ∀ c ∈ ws, jsSpace c = true) (hl0 : jsSpace l0 = false)
    (hcap : ∀ c ∈ cap, (c != '"') = true) (hne : cap ≠ []) :
    eatField (l0 :: ltl) (ws ++ (l0 :: (ltl ++ (' ' :: '"' :: (cap ++ ('"' :: X)))))) =
      some (cap, X) := by
  unfold eatField
  rw [dropWhile_all_append jsSpace ws _ hws]
  rw [List.dropWhile_cons, hl0]
  simp only [if_false, Bool.false_eq_true]
  have h1 : litDrop (l0 :: ltl) (l0 :: (ltl ++ (' ' :: '"' :: (cap ++ ('"' :: X))))) =
      some (' ' :: '"' :: (cap ++ ('"' :: X))) := by
    have := litDrop_append (l0 :: ltl) (' ' :: '"' :: (cap ++ ('"' :: X)))
    simpa using this
  rw [h1]
  simp only [Option.some_bind]
  have h2 : List.dropWhile jsSpace (' ' :: '"' :: (cap ++ ('"' :: X))) =
      '"' :: (cap ++ ('"' :: X)) := by
    simp [List.dropWhile_cons, jsSpace]
  rw [h2]
  have h3 : litDrop "\"".toList ('"' :: (cap ++ ('"' :: X))) = some (cap ++ ('"' :: X)) := by
    simp [litDrop]
  rw [h3]
  simp only [Option.some_bind]
  rw [takeWhile_field _ _ _ _ hcap (by decide), dropWhile_field _ _ _ _ hcap (by decide)]
  have h4 : cap.isEmpty = false := List.isEmpty_eq_false.mpr hne
  rw [h4]
  simp [litDrop]

theorem stepBrace (A : Str) : litDrop "\x7b".toList ('\x7b' :: A) = some A := by
  simp [litDrop]

theorem stepComma (A : Str) : litDrop ",".toList (',' :: A) = some A := by
  simp [litDrop]

theorem stepName (nm X : Str) (hq : ∀ c ∈ nm, (c != '"') = true) (hne : nm ≠ []) :
    eatField "name:".toList ("\n        name: \"".toList ++ (nm ++ ('"' :: X))) =
      some (nm, X) := by
  have h := eatField_render 'n' "ame:".toList "\n        ".toList nm X
    (by decide) (by decide) hq hne
  exact h

theorem stepDesc (cap X : Str) (hq : ∀ c ∈ cap, (c != '"') = true) (hne : cap ≠ []) :
    eatField "description:".toList
      ("\n        description: \"".toList ++ (cap ++ ('"' :: X))) = some (cap, X) := by
  have h := eatField_render 'd' "escription:".toList "\n        ".toList cap X
    (by decide) (by decide) hq hne
  exact h

theorem stepUrl (cap X : Str) (hq : ∀ c ∈ cap, (c != '"') = true) (hne : cap ≠ []) :
    eatField "url:".toList ("\n        url: \"".toList ++ (cap ++ ('"' :: X))) =
      some (cap, X) := by
  have h := eatField_render 'u' "rl:".toList "\n        ".toList cap X
    (by decide) (by decide) hq hne
  exact h

theorem stepAvatar (cap X : Str) (hq : ∀ c ∈ cap, (c != '"') = true) (hne : cap ≠ []) :
    eatField "avatar:".toList ("\n        avatar: \"".toList ++ (cap ++ ('"' :: X))) =
      some (cap, X) := by
  have h := eatField_render 'a' "vatar:".toList "\n        ".toList cap X
    (by decide) (by decide) hq hne
  exact h

theorem tryOptStr_render (l0 : Char) (ltl ws cap X : Str)
    (hws : ∀ c ∈ ws, jsSpace c = true) (hl0 : jsSpace l0 = false)
    (hcap : ∀ c ∈ cap, (c != '"') = true) :
    tryOptStr (l0 :: ltl)
      (',' :: (ws ++ (l0 :: (ltl ++ (' ' :: '"' :: (cap ++ ('"' :: X))))))) =
      some (cap, X) := by
  unfold tryOptStr
  have h0 : litDrop ",".toList
      (',' :: (ws ++ (l0 :: (ltl ++ (' ' :: '"' :: (cap ++ ('"' :: X))))))) =
      some (ws ++ (l0 :: (ltl ++ (' ' :: '"' :: (cap ++ ('"' :: X)))))) := by
    simp [litDrop]
  rw [h0]
  simp only [Option.some_bind]
  rw [dropWhile_all_append jsSpace ws _ hws]
  rw [List.dropWhile_cons, hl0]
  simp only [if_false, Bool.false_eq_true]
  have h1 : litDrop (l0 :: ltl) (l0 :: (ltl ++ (' ' :: '"' :: (cap ++ ('"' :: X))))) =
      some (' ' :: '"' :: (cap ++ ('"' :: X))) := by
    have := litDrop_append (l0 :: ltl) (' ' :: '"' :: (cap ++ ('"' :: X)))
    simpa using this
  rw [h1]
  simp only [Option.some_bind]
  have h2 : List.dropWhile jsSpace (' ' :: '"' :: (cap ++ ('"' :: X))) =
      '"' :: (cap ++ ('"' :: X)) := by
    simp [List.dropWhile_cons, jsSpace]
  rw [h2]
  have h3 : litDrop "\"".toList ('"' :: (cap ++ ('"' :: X))) = some (cap ++ ('"' :: X)) := by
    simp [litDrop]
  rw [h3]
  simp only [Option.some_bind]
  rw [takeWhile_field _ _ _ _ hcap (by decide), dropWhile_field _ _ _ _ hcap (by decide)]
  simp [litDrop]

theorem tryOptStr_hit (d X : Str) (hq : ∀ c ∈ d, (c != '"') = true) :
    tryOptStr "addDate:".toList
      (",\n        addDate: \"".toList ++ (d ++ ('"' :: X))) = some (d, X) := by
  have h := tryOptStr_render 'a' "ddDate:".toList "\n        ".toList d X
    (by decide) (by decide) hq
  exact h

theorem tryOptStr_missRec (X : Str) :
    tryOptStr "addDate:".toList (",\n        recommended: true".toList ++ X) = none := by
  simp [tryOptStr, litDrop, List.dropWhile_cons, jsSpace]

theorem tryOptStr_missDis (X : Str) :
    tryOptStr "addDate:".toList (",\n        disconnected: true".toList ++ X) = none := by
  simp [tryOptStr, litDrop, List.dropWhile_cons, jsSpace]

theorem tryOptStr_close (label X : Str) :
    tryOptStr label ("\n    \x7d".toList ++ X) = none := by
  simp [tryOptStr, litDrop]

theorem tryOptBool_rec_hit (X : Str) :
    tryOptBool "recommended:".toList (",\n        recommended: true".toList ++ X) =
      some ("true".toList, X) := by
  simp [tryOptBool, litDrop, List.dropWhile_cons, jsSpace]

theorem tryOptBool_rec_missDis (X : Str) :
    tryOptBool "recommended:".toList (",\n        disconnected: true".toList ++ X) =
      none := by
  simp [tryOptBool, litDrop, List.dropWhile_cons, jsSpace]

theorem tryOptBool_dis_hit (X : Str) :
    tryOptBool "disconnected:".toList (",\n        disconnected: true".toList ++ X) =
      some ("true".toList, X) := by
  simp [tryOptBool, litDrop, List.dropWhile_cons, jsSpace]

theorem tryOptBool_close (label X : Str) :
    tryOptBool label ("\n    \x7d".toList ++ X) = none := by
  simp [tryOptBool, litDrop]

theorem stepClose (X : Str) :
    litDrop "\x7d".toList (("\n    \x7d".toList ++ X).dropWhile jsSpace) = some X := by
  simp [List.dropWhile_cons, jsSpace, litDrop]

set_option maxHeartbeats 1000000 in
theorem matchTail_render (nm ds ur av : Str) (ad : Option Str) (rc dc : Option Bool)
    (had : wfOptDate ad = true) (hrc : wfFlag rc = true) (hdc : wfFlag dc = true)
    (rest : Str) :
    matchTail nm ds ur av
      (optAdd ⟨nm, ds, ur, av, ad, rc, dc⟩ ++ (optRec ⟨nm, ds, ur, av, ad, rc, dc⟩ ++
        (optDis ⟨nm, ds, ur, av, ad, rc, dc⟩ ++ ("\n    \x7d".toList ++ rest)))) =
      some (⟨nm, ds, ur, av, ad, rc, dc⟩, rest) := by
  have hrc' : rc = none ∨ rc = some true := by
    cases rc with
    | none => exact Or.inl rfl
    | some b => cases b; cases hrc; exact Or.inr rfl
  have hdc' : dc = none ∨ dc = some true := by
    cases dc with
    | none => exact Or.inl rfl
    | some b => cases b; cases hdc; exact Or.inr rfl
  cases ad with
  | none =>
      rcases hrc' with rfl | rfl <;> rcases hdc' with rfl | rfl <;>
        simp only [matchTail, optAdd, optRec, optDis, eatOptStr, eatOptBool,
          Option.getD_none, Option.getD_some, Bool.false_eq_true, if_false, if_true,
          List.nil_append, List.append_assoc, List.cons_append,
          tryOptStr_close, tryOptBool_close, tryOptStr_missRec, tryOptStr_missDis,
          tryOptBool_rec_hit, tryOptBool_rec_missDis, tryOptBool_dis_hit, stepClose,
          Option.map_some', eq_self_iff_true]
  | some d =>
      simp only [wfOptDate, wfField, Bool.and_eq_true, Bool.not_eq_true',
        List.isEmpty_eq_false, List.all_eq_true] at had
      obtain ⟨⟨hned, hqd⟩, _⟩ := had
      have hied : d.isEmpty = false := List.isEmpty_eq_false.mpr hned
      have hhit : ∀ X : Str, tryOptStr "addDate:".toList
          (",\n        addDate: \"".toList ++ (d ++ ('"' :: X))) = some (d, X) :=
        fun X => tryOptStr_hit d X hqd
      rcases hrc' with rfl | rfl <;> rcases hdc' with rfl | rfl <;>
        simp only [matchTail, optAdd, optRec, optDis, eatOptStr, eatOptBool,
          Option.getD_none, Option.getD_some, Bool.false_eq_true, if_false, if_true,
          hied, List.nil_append, List.append_assoc, List.cons_append, hhit,
          tryOptStr_close, tryOptBool_close, tryOptStr_missRec, tryOptStr_missDis,
          tryOptBool_rec_hit, tryOptBool_rec_missDis, tryOptBool_dis_hit, stepClose,
          Option.map_some', eq_self_iff_true]


set_option maxHeartbeats 1000000 in
theorem matchObjectAt_render (f : FriendLink) (rest : Str) (hwf : wfEntry f = true) :
    matchObjectAt (objBody f ++ rest) = some (f, rest) := by
  obtain ⟨nm, ds, ur, av, ad, rc, dc⟩ := f
  simp only [wfEntry, wfField, Bool.and_eq_true, Bool.not_eq_true',
    List.isEmpty_eq_false, List.all_eq_true] at hwf
  obtain ⟨⟨⟨⟨⟨⟨⟨⟨hne1, hq1⟩, _⟩, ⟨⟨hne2, hq2⟩, _⟩⟩, ⟨⟨hne3, hq3⟩, _⟩⟩, ⟨⟨hne4, hq4⟩, _⟩⟩,
    had⟩, hrc⟩, hdc⟩ := hwf
  have hshape : objBody ⟨nm, ds, ur, av, ad, rc, dc⟩ ++ rest =
      '\x7b' :: ("\n        name: \"".toList ++ (nm ++ '"' :: ',' ::
        ("\n        description: \"".toList ++ (ds ++ '"' :: ',' ::
        ("\n        url: \"".toList ++ (ur ++ '"' :: ',' ::
        ("\n        avatar: \"".toList ++ (av ++ '"' ::
        (optAdd ⟨nm, ds, ur, av, ad, rc, dc⟩ ++ (optRec ⟨nm, ds, ur, av, ad, rc, dc⟩ ++
          (optDis ⟨nm, ds, ur, av, ad, rc, dc⟩ ++
            ("\n    \x7d".toList ++ rest)))))))))))) := by
    simp [objBody, List.append_assoc]
  rw [hshape]
  unfold matchObjectAt
  rw [stepBrace]
  simp only [Option.some_bind]
  rw [stepName nm _ hq1 hne1]
  simp only [Option.some_bind]
  rw [stepComma]
  simp only [Option.some_bind]
  rw [stepDesc ds _ hq2 hne2]
  simp only [Option.some_bind]
  rw [stepComma]
  simp only [Option.some_bind]
  rw [stepUrl ur _ hq3 hne3]
  simp only [Option.some_bind]
  rw [stepComma]
  simp only [Option.some_bind]
  rw [stepAvatar av _ hq4 hne4]
  simp only [Option.some_bind]
  exact matchTail_render nm ds ur av ad rc dc had hrc hdc rest

/-! ## The scan loop over the rendered array content -/

theorem litDrop_some_eq (pat : Str) :
    ∀ s r : Str, litDrop pat s = some r → s = pat ++ r := by
  induction pat with
  | nil =>
      intro s r h
      simpa [litDrop] using h
  | cons p ps ih =>
      intro s r h
      cases s with
      | nil => simp [litDrop] at h
      | cons c cs =>
          simp only [litDrop] at h
          split_ifs at h with hpc
          subst hpc
          simp [ih cs r h]

theorem eatField_suffix (label s cap r : Str) (h : eatField label s = some (cap, r)) :
    r <:+ s := by
  unfold eatField at h
  cases h1 : litDrop label (s.dropWhile jsSpace) with
  | none => rw [h1] at h; cases h
  | some t1 =>
      rw [h1] at h
      simp only [Option.some_bind] at h
      cases h2 : litDrop "\"".toList (t1.dropWhile jsSpace) with
      | none => rw [h2] at h; cases h
      | some t2 =>
          rw [h2] at h
          simp only [Option.some_bind] at h
          split_ifs at h with hcap
          cases h3 : litDrop "\"".toList (t2.dropWhile (fun c => c != '"')) with
          | none => rw [h3] at h; cases h
          | some t3 =>
              rw [h3] at h
              simp only [Option.map_some', Option.some.injEq, Prod.mk.injEq] at h
              obtain ⟨-, rfl⟩ := h
              have s1 : t3 <:+ t2.dropWhile (fun c => c != '"') := litDrop_suffix _ _ _ h3
              have s2 : t2.dropWhile (fun c => c != '"') <:+ t2 := List.dropWhile_suffix _
              have s3 : t2 <:+ t1.dropWhile jsSpace := litDrop_suffix _ _ _ h2
              have s4 : t1.dropWhile jsSpace <:+ t1 := List.dropWhile_suffix _
              have s5 : t1 <:+ s.dropWhile jsSpace := litDrop_suffix _ _ _ h1
              have s6 : s.dropWhile jsSpace <:+ s := List.dropWhile_suffix _
              exact (((((s1.trans s2).trans s3).trans s4).trans s5).trans s6)

theorem tryOptStr_suffix (label s cap r : Str) (h : tryOptStr label s = some (cap, r)) :
    r <:+ s := by
  unfold tryOptStr at h
  cases h0 : litDrop ",".toList s with
  | none => rw [h0] at h; cases h
  | some t0 =>
      rw [h0] at h
      simp only [Option.some_bind] at h
      cases h1 : litDrop label (t0.dropWhile jsSpace) with
      | none => rw [h1] at h; cases h
      | some t1 =>
          rw [h1] at h
          simp only [Option.some_bind] at h
          cases h2 : litDrop "\"".toList (t1.dropWhile jsSpace) with
          | none => rw [h2] at h; cases h
          | some t2 =>
              rw [h2] at h
              simp only [Option.some_bind] at h
              cases h3 : litDrop "\"".toList (t2.dropWhile (fun c => c != '"')) with
              | none => rw [h3] at h; cases h
              | some t3 =>
                  rw [h3] at h
                  simp only [Option.map_some', Option.some.injEq, Prod.mk.injEq] at h
                  obtain ⟨-, rfl⟩ := h
                  have s1 : t3 <:+ t2.dropWhile (fun c => c != '"') :=
                    litDrop_suffix _ _ _ h3
                  have s2 : t2.dropWhile (fun c => c != '"') <:+ t2 :=
                    List.dropWhile_suffix _
                  have s3 : t2 <:+ t1.dropWhile jsSpace := litDrop_suffix _ _ _ h2
                  have s4 : t1.dropWhile jsSpace <:+ t1 := List.dropWhile_suffix _
                  have s5 : t1 <:+ t0.dropWhile jsSpace := litDrop_suffix _ _ _ h1
                  have s6 : t0.dropWhile jsSpace <:+ t0 := List.dropWhile_suffix _
                  have s7 : t0 <:+ s := litDrop_suffix _ _ _ h0
                  exact ((((((s1.trans s2).trans s3).trans s4).trans s5).trans s6).trans s7)

theorem eatOptStr_suffix (label s : Str) : (eatOptStr label s).2 <:+ s := by
  unfold eatOptStr
  cases h : tryOptStr label s with
  | none => exact List.suffix_refl s
  | some p =>
      obtain ⟨cap, r⟩ := p
      exact tryOptStr_suffix label s cap r h

theorem tryOptBool_suffix (label s cap r : Str) (h : tryOptBool label s = some (cap, r)) :
    r <:+ s := by
  unfold tryOptBool at h
  cases h0 : litDrop ",".toList s with
  | none => rw [h0] at h; cases h
  | some t0 =>
      rw [h0] at h
      simp only [Option.some_bind] at h
      cases h1 : litDrop label (t0.dropWhile jsSpace) with
      | none => rw [h1] at h; cases h
      | some t1 =>
          rw [h1] at h
          simp only [Option.some_bind] at h
          have htr : ∀ t2, litDrop "true".toList (t1.dropWhile jsSpace) = some t2 →
              r <:+ s := by
            intro t2 h2
            rw [h2] at h
            simp only [Option.some.injEq, Prod.mk.injEq] at h
            obtain ⟨-, rfl⟩ := h
            have s1 : t2 <:+ t1.dropWhile jsSpace := litDrop_suffix _ _ _ h2
            have s4 : t1.dropWhile jsSpace <:+ t1 := List.dropWhile_suffix _
            have s5 : t1 <:+ t0.dropWhile jsSpace := litDrop_suffix _ _ _ h1
            have s6 : t0.dropWhile jsSpace <:+ t0 := List.dropWhile_suffix _
            have s7 : t0 <:+ s := litDrop_suffix _ _ _ h0
            exact ((((s1.trans s4).trans s5).trans s6).trans s7)
          cases h2 : litDrop "true".toList (t1.dropWhile jsSpace) with
          | some t2 => exact htr t2 h2
          | none =>
              rw [h2] at h
              cases h3 : litDrop "false".toList (t1.dropWhile jsSpace) with
              | none => rw [h3] at h; cases h
              | some t3 =>
                  rw [h3] at h
                  simp only [Option.some.injEq, Prod.mk.injEq] at h
                  obtain ⟨-, rfl⟩ := h
                  have s1 : t3 <:+ t1.dropWhile jsSpace := litDrop_suffix _ _ _ h3
                  have s4 : t1.dropWhile jsSpace <:+ t1 := List.dropWhile_suffix _
                  have s5 : t1 <:+ t0.dropWhile jsSpace := litDrop_suffix _ _ _ h1
                  have s6 : t0.dropWhile jsSpace <:+ t0 := List.dropWhile_suffix _
                  have s7 : t0 <:+ s := litDrop_suffix _ _ _ h0
                  exact ((((s1.trans s4).trans s5).trans s6).trans s7)

theorem eatOptBool_suffix (label s : Str) : (eatOptBool label s).2 <:+ s := by
  unfold eatOptBool
  cases h : tryOptBool label s with
  | none => exact List.suffix_refl s
  | some p =>
      obtain ⟨cap, r⟩ := p
      exact tryOptBool_suffix label s cap r h

theorem matchTail_suffix (nm ds ur av s : Str) (f : FriendLink) (rest : Str)
    (h : matchTail nm ds ur av s = some (f, rest)) : rest <:+ s := by
  simp only [matchTail] at h
  cases hl : litDrop "\x7d".toList
      ((eatOptBool "disconnected:".toList
        (eatOptBool "recommended:".toList
          (eatOptStr "addDate:".toList s).2).2).2.dropWhile jsSpace) with
  | none => rw [hl] at h; cases h
  | some t =>
      rw [hl] at h
      simp only [Option.map_some', Option.some.injEq, Prod.mk.injEq] at h
      obtain ⟨-, rfl⟩ := h
      have s1 : t <:+ _ := litDrop_suffix _ _ _ hl
      have s2 := List.dropWhile_suffix (l := (eatOptBool "disconnected:".toList
        (eatOptBool "recommended:".toList
          (eatOptStr "addDate:".toList s).2).2).2) (p := jsSpace)
      have s3 := eatOptBool_suffix "disconnected:".toList
        (eatOptBool "recommended:".toList (eatOptStr "addDate:".toList s).2).2
      have s4 := eatOptBool_suffix "recommended:".toList
        (eatOptStr "addDate:".toList s).2
      have s5 := eatOptStr_suffix "addDate:".toList s
      exact (((s1.trans s2).trans s3).trans s4).trans s5

theorem matchObjectAt_some (s : Str) (f : FriendLink) (rest : Str)
    (h : matchObjectAt s = some (f, rest)) :
    rest.length < s.length ∧ rest <:+ s := by
  unfold matchObjectAt at h
  cases h0 : litDrop "\x7b".toList s with
  | none => rw [h0] at h; cases h
  | some s0 =>
      rw [h0] at h
      simp only [Option.some_bind] at h
      cases h1 : eatField "name:".toList s0 with
      | none => rw [h1] at h; cases h
      | some p1 =>
          rw [h1] at h
          simp only [Option.some_bind] at h
          cases h2 : litDrop ",".toList p1.2 with
          | none => rw [h2] at h; cases h
          | some s1 =>
              rw [h2] at h
              simp only [Option.some_bind] at h
              cases h3 : eatField "description:".toList s1 with
              | none => rw [h3] at h; cases h
              | some p2 =>
                  rw [h3] at h
                  simp only [Option.some_bind] at h
                  cases h4 : litDrop ",".toList p2.2 with
                  | none => rw [h4] at h; cases h
                  | some s2 =>
                      rw [h4] at h
                      simp only [Option.some_bind] at h
                      cases h5 : eatField "url:".toList s2 with
                      | none => rw [h5] at h; cases h
                      | some p3 =>
                          rw [h5] at h
                          simp only [Option.some_bind] at h
                          cases h6 : litDrop ",".toList p3.2 with
                          | none => rw [h6] at h; cases h
                          | some s3 =>
                              rw [h6] at h
                              simp only [Option.some_bind] at h
                              cases h7 : eatField "avatar:".toList s3 with
                              | none => rw [h7] at h; cases h
                              | some p4 =>
                                  rw [h7] at h
                                  simp only [Option.some_bind] at h
                                  have t1 : rest <:+ p4.2 :=
                                    matchTail_suffix _ _ _ _ _ _ _ h
                                  have t2 : p4.2 <:+ s3 :=
                                    eatField_suffix _ _ _ _ h7
                                  have t3 : s3 <:+ p3.2 := litDrop_suffix _ _ _ h6
                                  have t4 : p3.2 <:+ s2 := eatField_suffix _ _ _ _ h5
                                  have t5 : s2 <:+ p2.2 := litDrop_suffix _ _ _ h4
                                  have t6 : p2.2 <:+ s1 := eatField_suffix _ _ _ _ h3
                                  have t7 : s1 <:+ p1.2 := litDrop_suffix _ _ _ h2
                                  have t8 : p1.2 <:+ s0 := eatField_suffix _ _ _ _ h1
                                  have hsuf : rest <:+ s0 :=
                                    ((((((t1.trans t2).trans t3).trans t4).trans
                                      t5).trans t6).trans t7).trans t8
                                  have hseq : s = '\x7b' :: s0 := by
                                    have := litDrop_some_eq _ s s0 h0
                                    simpa using this
                                  constructor
                                  · rw [hseq]
                                    have := hsuf.length_le
                                    simp only [List.length_cons]
                                    omega
                                  · rw [hseq]
                                    exact hsuf.trans (List.suffix_cons '\x7b' s0)

theorem scanGo_nil (fuel : Nat) : scanObjectsGo fuel [] = [] := by
  cases fuel <;> rfl

theorem matchObjectAt_ne (c : Char) (t : Str) (h : c ≠ '\x7b') :
    matchObjectAt (c :: t) = none := by
  have h0 : litDrop "\x7b".toList (c :: t) = none := by
    simp [litDrop, Ne.symm h]
  unfold matchObjectAt
  rw [h0]
  rfl

theorem scanGo_skip (c : Char) (hc : c ≠ '\x7b') (fuel : Nat) (cs : Str) :
    scanObjectsGo (fuel + 1) (c :: cs) = scanObjectsGo fuel cs := by
  simp [scanObjectsGo, matchObjectAt_ne c cs hc]

theorem scanGo_cons_match (fuel : Nat) (c : Char) (cs : Str) (f : FriendLink)
    (rest : Str) (hm : matchObjectAt (c :: cs) = some (f, rest)) :
    scanObjectsGo (fuel + 1) (c :: cs) = f :: scanObjectsGo fuel rest := by
  simp [scanObjectsGo, hm]

theorem scanGo_skipN (pre : Str) (hpre : ∀ c ∈ pre, c ≠ '\x7b') :
    ∀ (fuel : Nat) (cs : Str), pre.length ≤ fuel →
      scanObjectsGo fuel (pre ++ cs) = scanObjectsGo (fuel - pre.length) cs := by
  induction pre with
  | nil =>
      intro fuel cs _
      simp
  | cons c p ih =>
      intro fuel cs h
      simp only [List.length_cons] at h
      obtain ⟨g, rfl⟩ : ∃ g, fuel = g + 1 := ⟨fuel - 1, by omega⟩
      simp only [List.cons_append]
      rw [scanGo_skip c (hpre c (List.mem_cons_self c p))]
      rw [ih (fun x hx => hpre x (List.mem_cons_of_mem c hx)) g cs (by omega)]
      congr 1
      simp only [List.length_cons]
      omega

theorem objBody_shape (f : FriendLink) (X : Str) :
    objBody f ++ X = '\x7b' :: ("\n        name: \"".toList ++ (f.name ++ '"' :: ',' ::
      ("\n        description: \"".toList ++ (f.description ++ '"' :: ',' ::
      ("\n        url: \"".toList ++ (f.url ++ '"' :: ',' ::
      ("\n        avatar: \"".toList ++ (f.avatar ++ '"' ::
      (optAdd f ++ (optRec f ++ (optDis f ++ ("\n    \x7d".toList ++ X)))))))))))) := by
  simp [objBody, List.append_assoc]

theorem objBody_len_pos (f : FriendLink) : 1 ≤ (objBody f).length := by
  have h := congrArg List.length (objBody_shape f [])
  simp only [List.append_nil] at h
  rw [h]
  simp

theorem matchObjectAt_objBody (f : FriendLink) (X : Str) (hwf : wfEntry f = true) :
    matchObjectAt (objBody f ++ X) = some (f, X) := matchObjectAt_render f X hwf

theorem scanTail (es : List FriendLink) (hwf : es.all wfEntry = true) :
    ∀ fuel : Nat, (tailBody es).length ≤ fuel →
      scanObjectsGo fuel (tailBody es) = es := by
  induction es with
  | nil =>
      intro fuel hf
      have h2 : tailBody ([] : List FriendLink) = [',', '\n'] := rfl
      rw [h2] at hf ⊢
      have hlen : ([',', '\n'] : Str).length ≤ fuel := hf
      have hskip := scanGo_skipN [',', '\n'] (by decide) fuel [] (by simpa using hlen)
      simpa [scanGo_nil] using hskip
  | cons e es ih =>
      intro fuel hf
      simp only [List.all_cons, Bool.and_eq_true] at hwf
      obtain ⟨hwe, hwes⟩ := hwf
      have hb : tailBody (e :: es) = [',', '\n', ' ', ' ', ' ', ' '] ++
          (objBody e ++ tailBody es) := by
        simp [tailBody, List.append_assoc]
      rw [hb] at hf ⊢
      have hlen6 : ([',', '\n', ' ', ' ', ' ', ' '] : Str).length ≤ fuel := by
        simp only [List.length_append] at hf
        simp only [List.length_cons, List.length_nil] at hf ⊢
        omega
      rw [scanGo_skipN [',', '\n', ' ', ' ', ' ', ' '] (by decide) fuel _ hlen6]
      have hrest : (objBody e).length + (tailBody es).length ≤ fuel - 6 := by
        simp only [List.length_append, List.length_cons, List.length_nil] at hf
        omega
      obtain ⟨g, hg⟩ : ∃ g, fuel - ([',', '\n', ' ', ' ', ' ', ' '] : Str).length =
          g + 1 := by
        refine ⟨fuel - 7, ?_⟩
        have := objBody_len_pos e
        simp only [List.length_cons, List.length_nil]
        omega
      rw [hg]
      rw [objBody_shape e (tailBody es)]
      have hm : matchObjectAt ('\x7b' ::
          ("\n        name: \"".toList ++ (e.name ++ '"' :: ',' ::
          ("\n        description: \"".toList ++ (e.description ++ '"' :: ',' ::
          ("\n        url: \"".toList ++ (e.url ++ '"' :: ',' ::
          ("\n        avatar: \"".toList ++ (e.avatar ++ '"' ::
          (optAdd e ++ (optRec e ++ (optDis e ++
            ("\n    \x7d".toList ++ tailBody es))))))))))))) = some (e, tailBody es) := by
        rw [← objBody_shape e (tailBody es)]
        exact matchObjectAt_objBody e (tailBody es) hwe
      rw [scanGo_cons_match g _ _ e (tailBody es) hm]
      have hge : (tailBody es).length ≤ g := by
        have := objBody_len_pos e
        simp only [List.length_cons, List.length_nil] at hg
        omega
      rw [ih hwes g hge]

theorem scanShape_correct (es : List FriendLink) (hwf : es.all wfEntry = true) :
    scanObjects (scanShape es) = es := by
  cases es with
  | nil => decide
  | cons e es =>
      simp only [List.all_cons, Bool.and_eq_true] at hwf
      obtain ⟨hwe, hwes⟩ := hwf
      unfold scanObjects
      have hb : scanShape (e :: es) = ['\n', ' ', ' ', ' ', ' '] ++
          (objBody e ++ tailBody es) := by
        simp [scanShape, List.append_assoc]
      rw [hb]
      set fuel := (['\n', ' ', ' ', ' ', ' '] ++ (objBody e ++ tailBody es)).length with hfuel
      have hlen5 : (['\n', ' ', ' ', ' ', ' '] : Str).length ≤ fuel := by
        rw [hfuel]
        simp
      rw [scanGo_skipN ['\n', ' ', ' ', ' ', ' '] (by decide) fuel _ hlen5]
      obtain ⟨g, hg⟩ : ∃ g, fuel - (['\n', ' ', ' ', ' ', ' '] : Str).length = g + 1 := by
        refine ⟨fuel - 6, ?_⟩
        have h1 := objBody_len_pos e
        rw [hfuel]
        simp only [List.length_append, List.length_cons, List.length_nil]
        omega
      rw [hg]
      rw [objBody_shape e (tailBody es)]
      have hm : matchObjectAt ('\x7b' ::
          ("\n        name: \"".toList ++ (e.name ++ '"' :: ',' ::
          ("\n        description: \"".toList ++ (e.description ++ '"' :: ',' ::
          ("\n        url: \"".toList ++ (e.url ++ '"' :: ',' ::
          ("\n        avatar: \"".toList ++ (e.avatar ++ '"' ::
          (optAdd e ++ (optRec e ++ (optDis e ++
            ("\n    \x7d".toList ++ tailBody es))))))))))))) = some (e, tailBody es) := by
        rw [← objBody_shape e (tailBody es)]
        exact matchObjectAt_objBody e (tailBody es) hwe
      rw [scanGo_cons_match g _ _ e (tailBody es) hm]
      have hge : (tailBody es).length ≤ g := by
        have h1 := objBody_len_pos e
        rw [hfuel] at hg
        simp only [List.length_append, List.length_cons, List.length_nil] at hg
        omega
      rw [scanTail es hwes g hge]

theorem renderEntry_eq (f : FriendLink) :
    renderEntry f = "    ".toList ++ objBody f := by
  simp [renderEntry, objBody, optAdd, optRec, optDis, List.append_assoc]

theorem tailBody_join (es : List FriendLink) : ∀ e : FriendLink,
    tailBody (e :: es) =
      ",\n".toList ++ (joinSep ",\n".toList ((e :: es).map renderEntry) ++
        ",\n".toList) := by
  induction es with
  | nil =>
      intro e
      simp [tailBody, joinSep, renderEntry_eq, List.append_assoc]
  | cons e2 es2 ih =>
      intro e
      have h2 := ih e2
      simp only [List.map_cons, joinSep] at h2 ⊢
      rw [tailBody]
      rw [h2]
      simp [renderEntry_eq, List.append_assoc]

theorem scanShape_join (es : List FriendLink) :
    '\n' :: (joinSep ",\n".toList (es.map renderEntry) ++ ",\n".toList) =
      scanShape es := by
  cases es with
  | nil => simp [joinSep, scanShape]
  | cons e es =>
      cases es with
      | nil =>
          simp [joinSep, scanShape, tailBody, renderEntry_eq, List.append_assoc]
      | cons e2 es2 =>
          have h2 := tailBody_join es2 e2
          simp only [List.map_cons, joinSep] at h2 ⊢
          rw [scanShape]
          rw [h2]
          simp [renderEntry_eq, List.append_assoc]

/-! ## Absence of the terminator `];` inside the rendered array content -/

theorem litTest2_head_ne (x y c : Char) (T : Str) (h : x ≠ c) :
    litTest [x, y] (c :: T) = false := by
  simp [litTest, litDrop, h]

theorem litTest2_single (x y c : Char) : litTest [x, y] [c] = false := by
  by_cases h : x = c <;> simp [litTest, litDrop, h]

theorem litTest2_ext (x y c d : Char) (X : Str) :
    litTest [x, y] (c :: d :: X) = litTest [x, y] [c, d] := by
  simp only [litTest, litDrop]
  split_ifs <;> rfl

theorem hasSub2_cons_ne (c : Char) (T : Str) (h : c ≠ ']') :
    hasSub (c :: T) "];".toList = hasSub T "];".toList := by
  have h2 : litTest "];".toList (c :: T) = false := litTest2_head_ne ']' ';' c T (Ne.symm h)
  show (litTest "];".toList (c :: T) || hasSub T "];".toList) = hasSub T "];".toList
  rw [h2, Bool.false_or]

theorem hs2_append : ∀ a b : Str, hasSub a "];".toList = false →
    hasSub b "];".toList = false →
    (a.getLast? ≠ some ']' ∨ b.head? ≠ some ';') →
    hasSub (a ++ b) "];".toList = false := by
  intro a
  induction a with
  | nil =>
      intro b _ hb _
      simpa using hb
  | cons c a' ih =>
      intro b ha hb hbd
      simp only [show "];".toList = [']', ';'] from rfl] at ha hb ih ⊢
      have hfacts : litTest [']', ';'] (c :: a') = false ∧
          hasSub a' [']', ';'] = false := by
        simpa only [hasSub, Bool.or_eq_false_iff] using ha
      obtain ⟨hlt, ha'⟩ := hfacts
      rw [show (c :: a') ++ b = c :: (a' ++ b) from rfl]
      show (litTest [']', ';'] (c :: (a' ++ b)) || hasSub (a' ++ b) [']', ';']) = false
      rw [Bool.or_eq_false_iff]
      constructor
      · cases a' with
        | nil =>
            rw [show ([] : Str) ++ b = b from rfl]
            cases b with
            | nil => exact litTest2_single ']' ';' c
            | cons e b' =>
                have hcd : ¬(']' = c ∧ ';' = e) := by
                  rcases hbd with h1 | h1
                  · intro hcon
                    exact h1 (by simp [← hcon.1])
                  · intro hcon
                    exact h1 (by simp [← hcon.2])
                rw [litTest2_ext]
                by_cases hx : ']' = c
                · by_cases hy : ';' = e
                  · exact absurd ⟨hx, hy⟩ hcd
                  · simp [litTest, litDrop, hx, hy]
                · simp [litTest, litDrop, hx]
        | cons d a'' =>
            rw [show (d :: a'') ++ b = d :: (a'' ++ b) from rfl]
            rw [litTest2_ext]
            rw [← litTest2_ext ']' ';' c d a'']
            exact hlt
      · cases a' with
        | nil =>
            rw [show ([] : Str) ++ b = b from rfl]
            exact hb
        | cons d a'' =>
            have hbd' : (d :: a'').getLast? ≠ some ']' ∨ b.head? ≠ some ';' := by
              rcases hbd with h1 | h1
              · left
                simpa using h1
              · exact Or.inr h1
            exact ih b ha' hb hbd'

theorem cu_exact : ∀ a b : Str, hasSub a "];".toList = false →
    captureUntil "];".toList (a ++ (']' :: ';' :: b)) = some a := by
  intro a
  induction a with
  | nil =>
      intro b _
      simp [captureUntil, litTest, litDrop]
  | cons c a' ih =>
      intro b ha
      simp only [show "];".toList = [']', ';'] from rfl] at ha ih ⊢
      have hfacts : litTest [']', ';'] (c :: a') = false ∧
          hasSub a' [']', ';'] = false := by
        simpa only [hasSub, Bool.or_eq_false_iff] using ha
      obtain ⟨hlt, ha'⟩ := hfacts
      have hlt2 : litTest [']', ';'] (c :: (a' ++ (']' :: ';' :: b))) = false := by
        cases a' with
        | nil =>
            rw [show ([] : Str) ++ (']' :: ';' :: b) = ']' :: ';' :: b from rfl]
            rw [litTest2_ext]
            by_cases hx : ']' = c
            · simp [litTest, litDrop, hx]
            · simp [litTest, litDrop, hx]
        | cons d a'' =>
            rw [show (d :: a'') ++ (']' :: ';' :: b) = d :: (a'' ++ (']' :: ';' :: b))
              from rfl]
            rw [litTest2_ext]
            rw [← litTest2_ext ']' ';' c d a'']
            exact hlt
      rw [show (c :: a') ++ (']' :: ';' :: b) = c :: (a' ++ (']' :: ';' :: b)) from rfl]
      show (if litTest [']', ';'] (c :: (a' ++ (']' :: ';' :: b))) = true then some []
        else (captureUntil [']', ';'] (a' ++ (']' :: ';' :: b))).map
          (fun r => c :: r)) = some (c :: a')
      rw [hlt2]
      simp only [Bool.false_eq_true, if_false]
      rw [ih b ha']
      rfl

theorem wfField_parts (s : Str) (h : wfField s = true) :
    s ≠ [] ∧ (∀ c ∈ s, (c != '"') = true) ∧ hasSub s "];".toList = false := by
  simp only [wfField, Bool.and_eq_true, Bool.not_eq_true', List.isEmpty_eq_false,
    List.all_eq_true] at h
  exact ⟨h.1.1, h.1.2, h.2⟩

theorem hasSub_field_append (s Y : Str) (hs : hasSub s "];".toList = false)
    (hY : hasSub Y "];".toList = false) (hYh : Y.head? = some '"') :
    hasSub (s ++ Y) "];".toList = false := by
  refine hs2_append s Y hs hY (Or.inr ?_)
  rw [hYh]
  decide

theorem hasSub_objBody_append (e : FriendLink) (X : Str) (hwe : wfEntry e = true)
    (hX : hasSub X "];".toList = false) :
    hasSub (objBody e ++ X) "];".toList = false := by
  simp only [wfEntry, Bool.and_eq_true] at hwe
  obtain ⟨⟨⟨⟨⟨⟨hw1, hw2⟩, hw3⟩, hw4⟩, hwad⟩, -⟩, -⟩ := hwe
  obtain ⟨-, -, hs1⟩ := wfField_parts _ hw1
  obtain ⟨-, -, hs2⟩ := wfField_parts _ hw2
  obtain ⟨-, -, hs3⟩ := wfField_parts _ hw3
  obtain ⟨-, -, hs4⟩ := wfField_parts _ hw4
  rw [objBody_shape e X]
  have hClose : hasSub ("\n    \x7d".toList ++ X) "];".toList = false :=
    hs2_append _ _ (by decide) hX (Or.inl (by decide))
  have hDis : hasSub (optDis e ++ ("\n    \x7d".toList ++ X)) "];".toList = false := by
    unfold optDis
    split_ifs
    · exact hs2_append _ _ (by decide) hClose (Or.inl (by decide))
    · simpa using hClose
  have hRec : hasSub (optRec e ++ (optDis e ++ ("\n    \x7d".toList ++ X)))
      "];".toList = false := by
    unfold optRec
    split_ifs
    · exact hs2_append _ _ (by decide) hDis (Or.inl (by decide))
    · simpa using hDis
  have hAdd : hasSub (optAdd e ++ (optRec e ++ (optDis e ++ ("\n    \x7d".toList ++ X))))
      "];".toList = false := by
    cases had : e.addDate with
    | none =>
        have hoa : optAdd e = [] := by simp [optAdd, had]
        rw [hoa]
        simpa using hRec
    | some d =>
        have hwd : wfField d = true := by
          rw [had] at hwad
          exact hwad
        obtain ⟨-, -, hsd⟩ := wfField_parts _ hwd
        have hoa : optAdd e = if d.isEmpty then [] else
            ",\n        addDate: \"".toList ++ (d ++ ['"']) := by
          simp [optAdd, had]
        rw [hoa]
        split_ifs
        · simpa using hRec
        · rw [show (",\n        addDate: \"".toList ++ (d ++ ['"'])) ++
              (optRec e ++ (optDis e ++ ("\n    \x7d".toList ++ X))) =
            ",\n        addDate: \"".toList ++ (d ++ ('"' ::
              (optRec e ++ (optDis e ++ ("\n    \x7d".toList ++ X)))))
            by simp [List.append_assoc]]
          refine hs2_append _ _ (by decide) ?_ (Or.inl (by decide))
          refine hs2_append _ _ hsd ?_ (Or.inr (by simp))
          rw [hasSub2_cons_ne '"' _ (by decide)]
          exact hRec
  have hAv : hasSub (e.avatar ++ '"' :: (optAdd e ++ (optRec e ++ (optDis e ++ ("\n    \x7d".toList ++ X))))) "];".toList = false := by
    refine hs2_append _ _ hs4 ?_ (Or.inr (by simp))
    rw [hasSub2_cons_ne '"' _ (by decide)]
    exact hAdd
  have hL4 : hasSub ("\n        avatar: \"".toList ++ (e.avatar ++ '"' :: (optAdd e ++ (optRec e ++ (optDis e ++ ("\n    \x7d".toList ++ X)))))) "];".toList = false :=
    hs2_append _ _ (by decide) hAv (Or.inl (by decide))
  have hUr : hasSub (e.url ++ '"' :: ',' :: ("\n        avatar: \"".toList ++ (e.avatar ++ '"' :: (optAdd e ++ (optRec e ++ (optDis e ++ ("\n    \x7d".toList ++ X))))))) "];".toList = false := by
    refine hs2_append _ _ hs3 ?_ (Or.inr (by simp))
    rw [hasSub2_cons_ne '"' _ (by decide), hasSub2_cons_ne ',' _ (by decide)]
    exact hL4
  have hL3 : hasSub ("\n        url: \"".toList ++ (e.url ++ '"' :: ',' :: ("\n        avatar: \"".toList ++ (e.avatar ++ '"' :: (optAdd e ++ (optRec e ++ (optDis e ++ ("\n    \x7d".toList ++ X)))))))) "];".toList = false :=
    hs2_append _ _ (by decide) hUr (Or.inl (by decide))
  have hDs : hasSub (e.description ++ '"' :: ',' :: ("\n        url: \"".toList ++ (e.url ++ '"' :: ',' :: ("\n        avatar: \"".toList ++ (e.avatar ++ '"' :: (optAdd e ++ (optRec e ++ (optDis e ++ ("\n    \x7d".toList ++ X))))))))) "];".toList = false := by
    refine hs2_append _ _ hs2 ?_ (Or.inr (by simp))
    rw [hasSub2_cons_ne '"' _ (by decide), hasSub2_cons_ne ',' _ (by decide)]
    exact hL3
  have hL2 : hasSub ("\n        description: \"".toList ++ (e.description ++ '"' :: ',' :: ("\n        url: \"".toList ++ (e.url ++ '"' :: ',' :: ("\n        avatar: \"".toList ++ (e.avatar ++ '"' :: (optAdd e ++ (optRec e ++ (optDis e ++ ("\n    \x7d".toList ++ X)))))))))) "];".toList = false :=
    hs2_append _ _ (by decide) hDs (Or.inl (by decide))
  have hNm : hasSub (e.name ++ '"' :: ',' :: ("\n        description: \"".toList ++ (e.description ++ '"' :: ',' :: ("\n        url: \"".toList ++ (e.url ++ '"' :: ',' :: ("\n        avatar: \"".toList ++ (e.avatar ++ '"' :: (optAdd e ++ (optRec e ++ (optDis e ++ ("\n    \x7d".toList ++ X))))))))))) "];".toList = false := by
    refine hs2_append _ _ hs1 ?_ (Or.inr (by simp))
    rw [hasSub2_cons_ne '"' _ (by decide), hasSub2_cons_ne ',' _ (by decide)]
    exact hL2
  have hL1 : hasSub ("\n        name: \"".toList ++ (e.name ++ '"' :: ',' :: ("\n        description: \"".toList ++ (e.description ++ '"' :: ',' :: ("\n        url: \"".toList ++ (e.url ++ '"' :: ',' :: ("\n        avatar: \"".toList ++ (e.avatar ++ '"' :: (optAdd e ++ (optRec e ++ (optDis e ++ ("\n    \x7d".toList ++ X)))))))))))) "];".toList = false :=
    hs2_append _ _ (by decide) hNm (Or.inl (by decide))
  rw [hasSub2_cons_ne '\x7b' _ (by decide)]
  exact hL1

theorem hasSub_tailBody (es : List FriendLink) (hwf : es.all wfEntry = true) :
    hasSub (tailBody es) "];".toList = false := by
  induction es with
  | nil => decide
  | cons e es ih =>
      simp only [List.all_cons, Bool.and_eq_true] at hwf
      obtain ⟨hwe, hwes⟩ := hwf
      rw [show tailBody (e :: es) = ",\n    ".toList ++ (objBody e ++ tailBody es)
        by simp [tailBody, List.append_assoc]]
      refine hs2_append _ _ (by decide) ?_ (Or.inl (by decide))
      exact hasSub_objBody_append e (tailBody es) hwe (ih hwes)

theorem hasSub_scanShape (es : List FriendLink) (hwf : es.all wfEntry = true) :
    hasSub (scanShape es) "];".toList = false := by
  cases es with
  | nil => decide
  | cons e es =>
      simp only [List.all_cons, Bool.and_eq_true] at hwf
      obtain ⟨hwe, hwes⟩ := hwf
      rw [show scanShape (e :: es) = "\n    ".toList ++ (objBody e ++ tailBody es)
        by simp [scanShape, List.append_assoc]]
      refine hs2_append _ _ (by decide) ?_ (Or.inl (by decide))
      exact hasSub_objBody_append e (tailBody es) hwe (hasSub_tailBody es hwes)

/-! ## Locating the constant in the generated file -/

theorem litDrop_none_take : ∀ (pat s : Str),
    litDrop pat (s.take pat.length) = none → litDrop pat s = none := by
  intro pat
  induction pat with
  | nil =>
      intro s h
      simp [litDrop] at h
  | cons p ps ih =>
      intro s h
      cases s with
      | nil => rfl
      | cons c cs =>
          rw [show (c :: cs).take (p :: ps).length = c :: cs.take ps.length from rfl] at h
          simp only [litDrop] at h ⊢
          by_cases hpc : p = c
          · rw [if_pos hpc] at h ⊢
            exact ih cs h
          · rw [if_neg hpc]

theorem matchConstAt_nomatch (s : Str) (h : litDrop constLit s = none) :
    matchConstAt s = none := by
  simp [matchConstAt, h]

theorem findConst_skip : ∀ (pre t : Str),
    (∀ p, p < pre.length → matchConstAt ((pre ++ t).drop p) = none) →
    findConst (pre ++ t) = findConst t := by
  intro pre
  induction pre with
  | nil =>
      intro t _
      rfl
  | cons c pre' ih =>
      intro t h
      have h0 := h 0 (by simp)
      rw [List.drop_zero] at h0
      rw [show (c :: pre') ++ t = c :: (pre' ++ t) from rfl] at h0 ⊢
      rw [show findConst (c :: (pre' ++ t)) = (match matchConstAt (c :: (pre' ++ t)) with
        | some r => some r
        | none => findConst (pre' ++ t)) from rfl]
      rw [h0]
      refine ih t ?_
      intro p hp
      have hh := h (p + 1) (by simp only [List.length_cons]; omega)
      rw [show ((c :: pre') ++ t).drop (p + 1) = (pre' ++ t).drop p from rfl] at hh
      exact hh

theorem hdr_no_const : ∀ p, p < hdrPre.length →
    litDrop constLit (((hdrPre ++ constLit).drop p).take constLit.length) = none := by
  decide

theorem matchConstAt_skip_hdr (R : Str) :
    ∀ p, p < hdrPre.length →
      matchConstAt ((hdrPre ++ (constLit ++ R)).drop p) = none := by
  intro p hp
  apply matchConstAt_nomatch
  apply litDrop_none_take
  rw [show hdrPre ++ (constLit ++ R) = (hdrPre ++ constLit) ++ R from
    (List.append_assoc hdrPre constLit R).symm]
  have hple : p ≤ (hdrPre ++ constLit).length := by
    simp only [List.length_append]
    omega
  rw [List.drop_append_of_le_length hple]
  have h26 : constLit.length ≤ ((hdrPre ++ constLit).drop p).length := by
    simp only [List.length_drop, List.length_append]
    omega
  rw [List.take_append_of_le_length h26]
  exact hdr_no_const p hp

theorem matchConstAt_hit (X b : Str) (hX : hasSub X "];".toList = false) :
    matchConstAt (constLit ++ (" FriendLink[] = [".toList ++ (X ++ (']' :: ';' :: b)))) =
      some X := by
  unfold matchConstAt
  rw [litDrop_append]
  simp only [Option.some_bind]
  have e1 : List.dropWhile jsSpace
      (" FriendLink[] = [".toList ++ (X ++ (']' :: ';' :: b))) =
      "FriendLink[]".toList ++ (" = [".toList ++ (X ++ (']' :: ';' :: b))) := by
    rw [show " FriendLink[] = [".toList ++ (X ++ (']' :: ';' :: b)) =
      ' ' :: ('F' :: ("riendLink[] = [".toList ++ (X ++ (']' :: ';' :: b)))) from rfl]
    simp [List.dropWhile_cons, jsSpace]
  rw [e1, litDrop_append]
  simp only [Option.some_bind]
  have e2 : List.dropWhile jsSpace (" = [".toList ++ (X ++ (']' :: ';' :: b))) =
      "=".toList ++ (" [".toList ++ (X ++ (']' :: ';' :: b))) := by
    rw [show " = [".toList ++ (X ++ (']' :: ';' :: b)) =
      ' ' :: ('=' :: (" [".toList ++ (X ++ (']' :: ';' :: b)))) from rfl]
    simp [List.dropWhile_cons, jsSpace]
  rw [e2, litDrop_append]
  simp only [Option.some_bind]
  have e3 : List.dropWhile jsSpace (" [".toList ++ (X ++ (']' :: ';' :: b))) =
      "[".toList ++ (X ++ (']' :: ';' :: b)) := by
    rw [show " [".toList ++ (X ++ (']' :: ';' :: b)) =
      ' ' :: ('[' :: (X ++ (']' :: ';' :: b))) from rfl]
    simp [List.dropWhile_cons, jsSpace]
  rw [e3, litDrop_append]
  simp only [Option.some_bind]
  exact cu_exact X b hX

theorem generate_shape (es : List FriendLink) :
    generateFriendsTs es =
      hdrPre ++ (constLit ++ (" FriendLink[] = [".toList ++
        (scanShape es ++ (']' :: ';' :: ['\n'])))) := by
  rw [← scanShape_join es]
  simp [generateFriendsTs, List.append_assoc]

theorem findConst_cons_of_match (c : Char) (cs r : Str)
    (h : matchConstAt (c :: cs) = some r) : findConst (c :: cs) = some r := by
  rw [show findConst (c :: cs) = (match matchConstAt (c :: cs) with
    | some x => some x
    | none => findConst cs) from rfl]
  rw [h]

theorem findConst_generate (es : List FriendLink) (hwf : es.all wfEntry = true) :
    findConst (generateFriendsTs es) = some (scanShape es) := by
  rw [generate_shape es]
  rw [findConst_skip hdrPre _ (matchConstAt_skip_hdr _)]
  have hsplit : constLit ++ (" FriendLink[] = [".toList ++
      (scanShape es ++ (']' :: ';' :: ['\n']))) =
    'e' :: ("xport const FRIEND_LINKS:".toList ++ (" FriendLink[] = [".toList ++
      (scanShape es ++ (']' :: ';' :: ['\n'])))) := rfl
  rw [hsplit]
  refine findConst_cons_of_match _ _ _ ?_
  rw [← hsplit]
  exact matchConstAt_hit (scanShape es) ['\n'] (hasSub_scanShape es hwf)

theorem parse_generate (es : List FriendLink) (hwf : wfList es = true) :
    parseFriendsTs (generateFriendsTs es) = some es := by
  unfold parseFriendsTs
  rw [findConst_generate es hwf]
  rw [Option.map_some']
  rw [scanShape_correct es hwf]

/-! ## Parse results are well-formed -/

theorem hs2_prefix : ∀ a b : Str, hasSub (a ++ b) "];".toList = false →
    hasSub a "];".toList = false := by
  intro a
  induction a with
  | nil =>
      intro b _
      decide
  | cons c a' ih =>
      intro b h
      rw [show (c :: a') ++ b = c :: (a' ++ b) from rfl] at h
      have hsplit : (litTest "];".toList (c :: (a' ++ b)) ||
          hasSub (a' ++ b) "];".toList) = false := h
      simp only [Bool.or_eq_false_iff] at hsplit
      obtain ⟨h1, h2⟩ := hsplit
      show (litTest "];".toList (c :: a') || hasSub a' "];".toList) = false
      simp only [Bool.or_eq_false_iff]
      refine ⟨?_, ih b h2⟩
      cases a' with
      | nil =>
          rw [show "];".toList = [']', ';'] from rfl]
          exact litTest2_single ']' ';' c
      | cons d a'' =>
          rw [show "];".toList = [']', ';'] from rfl] at h1 ⊢
          rw [show (d :: a'') ++ b = d :: (a'' ++ b) from rfl] at h1
          rw [litTest2_ext] at h1
          rw [litTest2_ext]
          exact h1

theorem hs2_suffix : ∀ a b : Str, hasSub (a ++ b) "];".toList = false →
    hasSub b "];".toList = false := by
  intro a
  induction a with
  | nil =>
      intro b h
      exact h
  | cons c a' ih =>
      intro b h
      rw [show (c :: a') ++ b = c :: (a' ++ b) from rfl] at h
      have hsplit : (litTest "];".toList (c :: (a' ++ b)) ||
          hasSub (a' ++ b) "];".toList) = false := h
      simp only [Bool.or_eq_false_iff] at hsplit
      exact ih b hsplit.2

theorem hs2_of_suffix (r s : Str) (hr : r <:+ s)
    (h : hasSub s "];".toList = false) : hasSub r "];".toList = false := by
  obtain ⟨a, rfl⟩ := hr
  exact hs2_suffix a r h

theorem hs2_of_prefix (r s : Str) (hr : r <+: s)
    (h : hasSub s "];".toList = false) : hasSub r "];".toList = false := by
  obtain ⟨b, rfl⟩ := hr
  exact hs2_prefix r b h

theorem cu_head : ∀ (s cap : Str), captureUntil "];".toList s = some cap →
    cap = [] ∨ cap.head? = s.head? := by
  intro s
  cases s with
  | nil =>
      intro cap h
      simp [captureUntil] at h
  | cons c cs =>
      intro cap h
      simp only [captureUntil] at h
      by_cases hlt : litTest "];".toList (c :: cs) = true
      · rw [if_pos hlt] at h
        exact Or.inl (Option.some.inj h).symm
      · rw [if_neg hlt] at h
        cases hcu : captureUntil "];".toList cs with
        | none =>
            rw [hcu] at h
            cases h
        | some r =>
            rw [hcu] at h
            simp only [Option.map_some', Option.some.injEq] at h
            subst h
            exact Or.inr rfl

theorem cu_no_sub : ∀ (s cap : Str), captureUntil "];".toList s = some cap →
    hasSub cap "];".toList = false := by
  intro s
  induction s with
  | nil =>
      intro cap h
      simp [captureUntil] at h
  | cons c cs ih =>
      intro cap h
      simp only [captureUntil] at h
      by_cases hlt : litTest "];".toList (c :: cs) = true
      · rw [if_pos hlt] at h
        rw [← Option.some.inj h]
        decide
      · rw [if_neg hlt] at h
        have hltf : litTest "];".toList (c :: cs) = false := by
          cases hb : litTest "];".toList (c :: cs)
          · rfl
          · exact absurd hb hlt
        cases hcu : captureUntil "];".toList cs with
        | none =>
            rw [hcu] at h
            cases h
        | some r =>
            rw [hcu] at h
            simp only [Option.map_some', Option.some.injEq] at h
            subst h
            have hr' := ih r hcu
            show (litTest "];".toList (c :: r) || hasSub r "];".toList) = false
            simp only [Bool.or_eq_false_iff]
            refine ⟨?_, hr'⟩
            cases r with
            | nil =>
                rw [show "];".toList = [']', ';'] from rfl]
                exact litTest2_single ']' ';' c
            | cons d r' =>
                have hh := cu_head cs (d :: r') hcu
                have hh2 : cs.head? = some d := by
                  rcases hh with h1 | h1
                  · exact absurd h1 (by simp)
                  · rw [← h1]
                    rfl
                obtain ⟨cs', rfl⟩ : ∃ cs', cs = d :: cs' := by
                  cases cs with
                  | nil => simp at hh2
                  | cons x xs =>
                      simp only [List.head?_cons, Option.some.injEq] at hh2
                      exact ⟨xs, by rw [hh2]⟩
                rw [show "];".toList = [']', ';'] from rfl] at hltf ⊢
                rw [litTest2_ext] at hltf
                rw [litTest2_ext]
                exact hltf

theorem eatField_sound (label s cap r : Str) (h : eatField label s = some (cap, r))
    (hs : hasSub s "];".toList = false) : wfField cap = true := by
  unfold eatField at h
  cases h1 : litDrop label (s.dropWhile jsSpace) with
  | none => rw [h1] at h; cases h
  | some t1 =>
      rw [h1] at h
      simp only [Option.some_bind] at h
      cases h2 : litDrop "\"".toList (t1.dropWhile jsSpace) with
      | none => rw [h2] at h; cases h
      | some t2 =>
          rw [h2] at h
          simp only [Option.some_bind] at h
          split_ifs at h with hcap
          cases h3 : litDrop "\"".toList (t2.dropWhile (fun c => c != '"')) with
          | none => rw [h3] at h; cases h
          | some t3 =>
              rw [h3] at h
              simp only [Option.map_some', Option.some.injEq, Prod.mk.injEq] at h
              obtain ⟨rfl, -⟩ := h
              have hsuf2 : t2 <:+ s := by
                have s3 : t2 <:+ t1.dropWhile jsSpace := litDrop_suffix _ _ _ h2
                have s4 : t1.dropWhile jsSpace <:+ t1 := List.dropWhile_suffix _
                have s5 : t1 <:+ s.dropWhile jsSpace := litDrop_suffix _ _ _ h1
                have s6 : s.dropWhile jsSpace <:+ s := List.dropWhile_suffix _
                exact ((s3.trans s4).trans s5).trans s6
              have ht2 : hasSub t2 "];".toList = false := hs2_of_suffix t2 s hsuf2 hs
              have hcsub : hasSub (t2.takeWhile (fun c => c != '"')) "];".toList = false :=
                hs2_of_prefix _ t2 (List.takeWhile_prefix _) ht2
              have hne : (t2.takeWhile (fun c => c != '"')).isEmpty = false := by
                cases hh : (t2.takeWhile (fun c => c != '"')).isEmpty
                · rfl
                · exact absurd hh hcap
              have hall : (t2.takeWhile (fun c => c != '"')).all
                  (fun c => c != '"') = true := by
                simp only [List.all_eq_true]
                intro c hc
                exact List.mem_takeWhile_imp (p := fun c => c != '"') hc
              have hcsub' : hasSub (t2.takeWhile (fun c => c != '"')) [']', ';'] = false :=
                hcsub
              simp [wfField, hne, hall, hcsub, hcsub']

theorem tryOptStr_sound (label s cap r : Str) (h : tryOptStr label s = some (cap, r))
    (hs : hasSub s "];".toList = false) :
    cap.all (fun c => c != '"') = true ∧ hasSub cap "];".toList = false := by
  unfold tryOptStr at h
  cases h0 : litDrop ",".toList s with
  | none => rw [h0] at h; cases h
  | some t0 =>
      rw [h0] at h
      simp only [Option.some_bind] at h
      cases h1 : litDrop label (t0.dropWhile jsSpace) with
      | none => rw [h1] at h; cases h
      | some t1 =>
          rw [h1] at h
          simp only [Option.some_bind] at h
          cases h2 : litDrop "\"".toList (t1.dropWhile jsSpace) with
          | none => rw [h2] at h; cases h
          | some t2 =>
              rw [h2] at h
              simp only [Option.some_bind] at h
              cases h3 : litDrop "\"".toList (t2.dropWhile (fun c => c != '"')) with
              | none => rw [h3] at h; cases h
              | some t3 =>
                  rw [h3] at h
                  simp only [Option.map_some', Option.some.injEq, Prod.mk.injEq] at h
                  obtain ⟨rfl, -⟩ := h
                  have hsuf2 : t2 <:+ s := by
                    have s3 : t2 <:+ t1.dropWhile jsSpace := litDrop_suffix _ _ _ h2
                    have s4 : t1.dropWhile jsSpace <:+ t1 := List.dropWhile_suffix _
                    have s5 : t1 <:+ t0.dropWhile jsSpace := litDrop_suffix _ _ _ h1
                    have s6 : t0.dropWhile jsSpace <:+ t0 := List.dropWhile_suffix _
                    have s7 : t0 <:+ s := litDrop_suffix _ _ _ h0
                    exact (((s3.trans s4).trans s5).trans s6).trans s7
                  have ht2 : hasSub t2 "];".toList = false :=
                    hs2_of_suffix t2 s hsuf2 hs
                  refine ⟨?_, hs2_of_prefix _ t2 (List.takeWhile_prefix _) ht2⟩
                  simp only [List.all_eq_true]
                  intro c hc
                  exact List.mem_takeWhile_imp (p := fun c => c != '"') hc

theorem wfFlag_if (t : Str) :
    wfFlag (if t = "true".toList then some true else none) = true := by
  by_cases ht : t = "true".toList
  · rw [if_pos ht]
    rfl
  · rw [if_neg ht]
    rfl

theorem wfOptDate_conv (d : Str) (hall : d.all (fun c => c != '"') = true)
    (hsub : hasSub d "];".toList = false) :
    wfOptDate (if d.isEmpty then none else some d) = true := by
  have hsub' : hasSub d [']', ';'] = false := hsub
  cases he : d.isEmpty with
  | false =>
      rw [if_neg (by decide : ¬ (false = true))]
      simp [wfOptDate, wfField, he, hall, hsub, hsub']
  | true =>
      rw [if_pos rfl]
      rfl

theorem matchTail_last (nm ds ur av : Str) (oa : Option Str) (orc odc : Option Bool)
    (s3 : Str) (f : FriendLink) (rest : Str)
    (h : (litDrop "\x7d".toList (s3.dropWhile jsSpace)).map
        (fun r => ((⟨nm, ds, ur, av, oa, orc, odc⟩ : FriendLink), r)) = some (f, rest))
    (h1 : wfField nm = true) (h2 : wfField ds = true) (h3 : wfField ur = true)
    (h4 : wfField av = true) (h5 : wfOptDate oa = true) (h6 : wfFlag orc = true)
    (h7 : wfFlag odc = true) : wfEntry f = true := by
  cases hl : litDrop "\x7d".toList (s3.dropWhile jsSpace) with
  | none => rw [hl] at h; cases h
  | some t =>
      rw [hl] at h
      simp only [Option.map_some', Option.some.injEq, Prod.mk.injEq] at h
      obtain ⟨hf, -⟩ := h
      subst hf
      simp [wfEntry, h1, h2, h3, h4, h5, h6, h7]

theorem eatOptStr_eq_none (label s : Str) (h : tryOptStr label s = none) :
    eatOptStr label s = (none, s) := by
  unfold eatOptStr
  rw [h]

theorem eatOptStr_eq_some (label s cap r : Str) (h : tryOptStr label s = some (cap, r)) :
    eatOptStr label s = (some cap, r) := by
  unfold eatOptStr
  rw [h]

theorem eatOptBool_eq_none (label s : Str) (h : tryOptBool label s = none) :
    eatOptBool label s = (none, s) := by
  unfold eatOptBool
  rw [h]

theorem eatOptBool_eq_some (label s cap r : Str) (h : tryOptBool label s = some (cap, r)) :
    eatOptBool label s = (some cap, r) := by
  unfold eatOptBool
  rw [h]

theorem matchTail_wf (nm ds ur av s : Str) (f : FriendLink) (rest : Str)
    (h : matchTail nm ds ur av s = some (f, rest))
    (hs : hasSub s "];".toList = false)
    (hnm : wfField nm = true) (hds : wfField ds = true)
    (hur : wfField ur = true) (hav : wfField av = true) :
    wfEntry f = true := by
  simp only [matchTail] at h
  refine matchTail_last nm ds ur av _ _ _ _ f rest h hnm hds hur hav ?_ ?_ ?_
  · cases htr1 : tryOptStr "addDate:".toList s with
    | none =>
        rw [eatOptStr_eq_none _ _ htr1]
        rfl
    | some p =>
        obtain ⟨dcap, drest⟩ := p
        rw [eatOptStr_eq_some _ _ _ _ htr1]
        obtain ⟨hall, hsub⟩ := tryOptStr_sound _ _ _ _ htr1 hs
        exact wfOptDate_conv dcap hall hsub
  · cases htr2 : tryOptBool "recommended:".toList (eatOptStr "addDate:".toList s).2 with
    | none =>
        rw [eatOptBool_eq_none _ _ htr2]
        rfl
    | some p =>
        obtain ⟨cap, r⟩ := p
        rw [eatOptBool_eq_some _ _ _ _ htr2]
        exact wfFlag_if cap
  · cases htr3 : tryOptBool "disconnected:".toList
        (eatOptBool "recommended:".toList (eatOptStr "addDate:".toList s).2).2 with
    | none =>
        rw [eatOptBool_eq_none _ _ htr3]
        rfl
    | some p =>
        obtain ⟨cap, r⟩ := p
        rw [eatOptBool_eq_some _ _ _ _ htr3]
        exact wfFlag_if cap

theorem matchObjectAt_wf (s : Str) (f : FriendLink) (rest : Str)
    (h : matchObjectAt s = some (f, rest)) (hs : hasSub s "];".toList = false) :
    wfEntry f = true := by
  unfold matchObjectAt at h
  cases h0 : litDrop "\x7b".toList s with
  | none => rw [h0] at h; cases h
  | some s0 =>
      rw [h0] at h
      simp only [Option.some_bind] at h
      have hs0 : hasSub s0 "];".toList = false :=
        hs2_of_suffix s0 s (litDrop_suffix _ _ _ h0) hs
      cases h1 : eatField "name:".toList s0 with
      | none => rw [h1] at h; cases h
      | some p1 =>
          obtain ⟨nm, r1⟩ := p1
          rw [h1] at h
          simp only [Option.some_bind] at h
          have hnm : wfField nm = true := eatField_sound _ _ _ _ h1 hs0
          have hr1 : hasSub r1 "];".toList = false :=
            hs2_of_suffix r1 s0 (eatField_suffix _ _ _ _ h1) hs0
          cases h1c : litDrop ",".toList r1 with
          | none => rw [h1c] at h; cases h
          | some s1 =>
              rw [h1c] at h
              simp only [Option.some_bind] at h
              have hs1 : hasSub s1 "];".toList = false :=
                hs2_of_suffix s1 r1 (litDrop_suffix _ _ _ h1c) hr1
              cases h2 : eatField "description:".toList s1 with
              | none => rw [h2] at h; cases h
              | some p2 =>
                  obtain ⟨ds, r2⟩ := p2
                  rw [h2] at h
                  simp only [Option.some_bind] at h
                  have hds : wfField ds = true := eatField_sound _ _ _ _ h2 hs1
                  have hr2 : hasSub r2 "];".toList = false :=
                    hs2_of_suffix r2 s1 (eatField_suffix _ _ _ _ h2) hs1
                  cases h2c : litDrop ",".toList r2 with
                  | none => rw [h2c] at h; cases h
                  | some s2 =>
                      rw [h2c] at h
                      simp only [Option.some_bind] at h
                      have hs2 : hasSub s2 "];".toList = false :=
                        hs2_of_suffix s2 r2 (litDrop_suffix _ _ _ h2c) hr2
                      cases h3 : eatField "url:".toList s2 with
                      | none => rw [h3] at h; cases h
                      | some p3 =>
                          obtain ⟨ur, r3⟩ := p3
                          rw [h3] at h
                          simp only [Option.some_bind] at h
                          have hur : wfField ur = true := eatField_sound _ _ _ _ h3 hs2
                          have hr3 : hasSub r3 "];".toList = false :=
                            hs2_of_suffix r3 s2 (eatField_suffix _ _ _ _ h3) hs2
                          cases h3c : litDrop ",".toList r3 with
                          | none => rw [h3c] at h; cases h
                          | some s3 =>
                              rw [h3c] at h
                              simp only [Option.some_bind] at h
                              have hs3 : hasSub s3 "];".toList = false :=
                                hs2_of_suffix s3 r3 (litDrop_suffix _ _ _ h3c) hr3
                              cases h4 : eatField "avatar:".toList s3 with
                              | none => rw [h4] at h; cases h
                              | some p4 =>
                                  obtain ⟨av, r4⟩ := p4
                                  rw [h4] at h
                                  simp only [Option.some_bind] at h
                                  have hav : wfField av = true :=
                                    eatField_sound _ _ _ _ h4 hs3
                                  have hr4 : hasSub r4 "];".toList = false :=
                                    hs2_of_suffix r4 s3 (eatField_suffix _ _ _ _ h4) hs3
                                  exact matchTail_wf nm ds ur av r4 f rest h hr4
                                    hnm hds hur hav

theorem scanGo_wf (fuel : Nat) : ∀ s : Str, hasSub s "];".toList = false →
    (scanObjectsGo fuel s).all wfEntry = true := by
  induction fuel with
  | zero =>
      intro s _
      rfl
  | succ g ih =>
      intro s hs
      cases s with
      | nil => rfl
      | cons c cs =>
          rw [show scanObjectsGo (g + 1) (c :: cs) =
            (match matchObjectAt (c :: cs) with
             | some (f, rest) => f :: scanObjectsGo g rest
             | none => scanObjectsGo g cs) from rfl]
          cases hm : matchObjectAt (c :: cs) with
          | none =>
              have hcs : hasSub cs "];".toList = false := by
                have hsplit : (litTest "];".toList (c :: cs) ||
                    hasSub cs "];".toList) = false := hs
                simp only [Bool.or_eq_false_iff] at hsplit
                exact hsplit.2
              exact ih cs hcs
          | some p =>
              obtain ⟨f, rest⟩ := p
              show (f :: scanObjectsGo g rest).all wfEntry = true
              simp only [List.all_cons, Bool.and_eq_true]
              refine ⟨matchObjectAt_wf (c :: cs) f rest hm hs, ?_⟩
              have hrest : hasSub rest "];".toList = false :=
                hs2_of_suffix rest (c :: cs) (matchObjectAt_some _ _ _ hm).2 hs
              exact ih rest hrest

theorem matchConstAt_no_sub (s r : Str) (h : matchConstAt s = some r) :
    hasSub r "];".toList = false := by
  unfold matchConstAt at h
  cases h0 : litDrop constLit s with
  | none => rw [h0] at h; cases h
  | some s1 =>
      rw [h0] at h
      simp only [Option.some_bind] at h
      cases h1 : litDrop "FriendLink[]".toList (s1.dropWhile jsSpace) with
      | none => rw [h1] at h; cases h
      | some s2 =>
          rw [h1] at h
          simp only [Option.some_bind] at h
          cases h2 : litDrop "=".toList (s2.dropWhile jsSpace) with
          | none => rw [h2] at h; cases h
          | some s3 =>
              rw [h2] at h
              simp only [Option.some_bind] at h
              cases h3 : litDrop "[".toList (s3.dropWhile jsSpace) with
              | none => rw [h3] at h; cases h
              | some s4 =>
                  rw [h3] at h
                  simp only [Option.some_bind] at h
                  exact cu_no_sub s4 r h

theorem findConst_no_sub : ∀ s r : Str, findConst s = some r →
    hasSub r "];".toList = false := by
  intro s
  induction s with
  | nil =>
      intro r h
      cases h
  | cons c cs ih =>
      intro r h
      rw [show findConst (c :: cs) = (match matchConstAt (c :: cs) with
        | some x => some x
        | none => findConst cs) from rfl] at h
      cases hm : matchConstAt (c :: cs) with
      | some x =>
          rw [hm] at h
          have hx : x = r := Option.some.inj h
          subst hx
          exact matchConstAt_no_sub _ _ hm
      | none =>
          rw [hm] at h
          exact ih r h

theorem parse_wf (text : Str) (res : List FriendLink)
    (h : parseFriendsTs text = some res) : wfList res = true := by
  unfold parseFriendsTs at h
  cases hf : findConst text with
  | none => rw [hf] at h; cases h
  | some ac =>
      rw [hf] at h
      simp only [Option.map_some', Option.some.injEq] at h
      subst h
      exact scanGo_wf ac.length ac (findConst_no_sub text ac hf)

/-- C6 counterexample: an entry satisfying the claim's own well-formedness
(`claimWellFormed`: required fields present and non-empty, flags only
`true`) whose round-trip nevertheless fails.  The quote inside the name
ends the regex capture `([^"]+)` early, the object regex then fails at
that position, and re-parsing the generated file returns `[]` instead of
the original one-entry list. -/
theorem c6_quote_cex :
    claimWellFormed ⟨['a', '"', 'b'], ['b'], ['c'], ['d'], none, none, none⟩ = true ∧
    parseFriendsTs (generateFriendsTs
        [⟨['a', '"', 'b'], ['b'], ['c'], ['d'], none, none, none⟩]) ≠
      some [⟨['a', '"', 'b'], ['b'], ['c'], ['d'], none, none, none⟩] := by
  decide

/-- C6 (corrected): round-trip of `generateFriendsTs` and `parseFriendsTs`.
The claim's own well-formedness is too weak (see `c6_quote_cex`); under
the amended well-formedness `wfList` — required fields non-empty, free of
the quote character and of the substring `];`, the same for `addDate`
when present, flags only `true` when present — parsing a generated file
yields exactly the original entry list.  Moreover every successful parse
result is itself well-formed in this amended sense, so the canonical
re-serialization `generateFriendsTs res` of any parseable text
round-trips exactly: re-parsing it returns `res` again, and hence
re-serializing the re-parse reproduces `generateFriendsTs res`
byte-for-byte. -/
theorem c6_round_trip_amended (es res : List FriendLink) (text : Str)
    (hwf : wfList es = true) (hparse : parseFriendsTs text = some res) :
    parseFriendsTs (generateFriendsTs es) = some es ∧
    wfList res = true ∧
    parseFriendsTs (generateFriendsTs res) = some res := by
  have h2 := parse_wf text res hparse
  exact ⟨parse_generate es hwf, h2, parse_generate res h2⟩

/-- Witness for `c6_round_trip_amended` at a concrete one-entry list and
the text generated from it. -/
theorem c6_round_trip_amended_witness :
    wfList [(⟨['a'], ['b'], ['c'], ['d'], none, none, none⟩ : FriendLink)] = true ∧
    (parseFriendsTs (generateFriendsTs
          [(⟨['a'], ['b'], ['c'], ['d'], none, none, none⟩ : FriendLink)]) =
        some [⟨['a'], ['b'], ['c'], ['d'], none, none, none⟩] ∧
      wfList [(⟨['a'], ['b'], ['c'], ['d'], none, none, none⟩ : FriendLink)] = true ∧
      parseFriendsTs (generateFriendsTs
          [(⟨['a'], ['b'], ['c'], ['d'], none, none, none⟩ : FriendLink)]) =
        some [⟨['a'], ['b'], ['c'], ['d'], none, none, none⟩]) :=
  ⟨by decide,
    c6_round_trip_amended
      [⟨['a'], ['b'], ['c'], ['d'], none, none, none⟩]
      [⟨['a'], ['b'], ['c'], ['d'], none, none, none⟩]
      (generateFriendsTs [⟨['a'], ['b'], ['c'], ['d'], none, none, none⟩])
      (by decide) (by decide)⟩
